import Mathlib

/-!
Verification of the DATATUI analysis engine against its specification.

The engine (src/src/core and src/datatui/core) profiles an in-memory
tabular dataset.  We shallowly embed the relevant Python functions as
executable Lean definitions:

* a cell of a column is `Option ℚ` (`none` models polars null; IEEE
  floats are idealized as exact rational arithmetic, which is the
  standard idealization for this code since every operation the claims
  touch is a field operation or a comparison);
* square roots are never materialized: wherever the source divides by a
  standard deviation (a float square root) the embedding uses the
  algebraically equivalent squared form, noted at each definition;
* fallible code paths (the Python functions that return None) return
  `Option` values.
-/

namespace DataTUI

/-- A cell of a dataset column; `none` is a polars null. -/
abbrev Cell := Option ℚ

/-- Embedding of `Series.drop_nulls()`: the non-null values in order. -/
def dropNulls (xs : List Cell) : List ℚ := xs.filterMap id

/-- Embedding of `Series.mean()`: sum over length (0 on the empty list,
a case the callers guard). -/
def meanQ (xs : List ℚ) : ℚ := xs.sum / xs.length

/-- Sum of k-th powers of deviations from the mean. -/
def devPowSum (xs : List ℚ) (k : ℕ) : ℚ :=
  (xs.map (fun x => (x - meanQ xs) ^ k)).sum

/-- Population central moment of order k (numpy/scipy moment with ddof 0). -/
def popMoment (xs : List ℚ) (k : ℕ) : ℚ := devPowSum xs k / xs.length

/-- Embedding of `Series.var()` (polars default ddof = 1): the sample
variance.  For a one-element series polars yields null and the source
would fault on `float(...)`; the embedding yields 0 there, which makes
every zero-variance guard of the source fire, matching the only
non-faulting reading of those paths. -/
def sampleVar (xs : List ℚ) : ℚ := devPowSum xs 2 / ((xs.length : ℚ) - 1)

/-- Ascending sort of a rational list (which sorting algorithm is used
is immaterial: the source sorts via polars/numpy, any stable ascending
sort agrees on the sorted sequence). -/
def sortQ (xs : List ℚ) : List ℚ := List.insertionSort (fun a b => a ≤ b) xs

/-- Embedding of `Series.quantile(q, interpolation='linear')` (the
numpy linear rule): on the ascending sort `s` of the data, with
h = q * (n - 1), the value s[⌊h⌋] + (h - ⌊h⌋) * (s[⌊h⌋+1] - s[⌊h⌋]),
clipped at the top element.  0 on an empty series (callers guard). -/
def quantileLinear (xs : List ℚ) (q : ℚ) : ℚ :=
  let s := sortQ xs
  let n := s.length
  if n = 0 then 0 else
    let h : ℚ := q * ((n : ℚ) - 1)
    let l : ℕ := ⌊h⌋.toNat
    let a := s.getD l 0
    let b := s.getD (l + 1) a
    a + (h - (l : ℚ)) * (b - a)

/-- Embedding of `Series.median()` (linear interpolation at 0.5). -/
def medianQ (xs : List ℚ) : ℚ := quantileLinear xs (1/2)

/-- Indices (into the series, in order) at which a predicate holds:
the embedding of building a boolean mask over a series and collecting
`[i for i, flag in enumerate(mask) if flag]`. -/
def maskIndices (p : ℚ → Bool) (xs : List ℚ) : List ℕ :=
  xs.enum.filterMap (fun ix => if p ix.2 then some ix.1 else none)

/-- Embedding of `OutlierDetector._detect_iqr_outliers`
(src/datatui/core/outliers.py lines 119-130): quartiles with linear
interpolation, bounds Q1 - 1.5 IQR and Q3 + 1.5 IQR, and the indices of
values strictly outside the bounds.  Returns (indices, lower, upper). -/
def detectIqrOutliers (s : List ℚ) : List ℕ × ℚ × ℚ :=
  let q1 := quantileLinear s (1/4)
  let q3 := quantileLinear s (3/4)
  let iqr := q3 - q1
  let lower := q1 - 3/2 * iqr
  let upper := q3 + 3/2 * iqr
  (maskIndices (fun x => decide (x < lower ∨ upper < x)) s, lower, upper)

/-- Embedding of `OutlierDetector._detect_zscore_outliers`
(src/datatui/core/outliers.py lines 132-143).  The source tests
|x - mean| / std > t with std the float square root of the sample
variance and returns [] when std = 0.  std = 0 iff the sample variance
is 0, and for t ≥ 0 (the default threshold is 3.0) the test is
equivalent to the squared form (x - mean)² > t² · var used here, so no
square root is needed. -/
def detectZscoreOutliers (t : ℚ) (s : List ℚ) : List ℕ :=
  if sampleVar s = 0 then []
  else maskIndices (fun x => decide (t ^ 2 * sampleVar s < (x - meanQ s) ^ 2)) s

/-- Embedding of `OutlierDetector._detect_mad_outliers`
(src/datatui/core/outliers.py lines 145-158): modified z-score
0.6745 · |x - median| / MAD > t, empty when the median absolute
deviation is 0.  All operations are exact in ℚ. -/
def detectMadOutliers (t : ℚ) (s : List ℚ) : List ℕ :=
  let med := medianQ s
  let mad := medianQ (s.map (fun x => |x - med|))
  if mad = 0 then []
  else maskIndices (fun x => decide (t < 6745/10000 * |x - med| / mad)) s

/-- Record mirroring the `OutlierInfo` dataclass of
src/datatui/core/outliers.py. -/
structure OutlierInfo where
  column_name : String
  total_count : ℕ
  iqr_outliers : List ℕ
  iqr_outlier_count : ℕ
  iqr_lower_bound : ℚ
  iqr_upper_bound : ℚ
  zscore_outliers : List ℕ
  zscore_outlier_count : ℕ
  zscore_threshold : ℚ
  mad_outliers : List ℕ
  mad_outlier_count : ℕ
  mad_threshold : ℚ
  outlier_percentage : ℚ
  outlier_values : List ℚ
deriving Repr, DecidableEq

/-- The union of the three methods: the source forms
`set(iqr + zscore + mad)` and later sorts it ascending; dedup of the
concatenation is that set, in first-occurrence order. -/
def combinedOutlierIndices (iqr zs mad : List ℕ) : List ℕ :=
  (iqr ++ zs ++ mad).dedup

/-- Embedding of `OutlierDetector._detect_column_outliers`
(src/datatui/core/outliers.py lines 63-117) for one column: drops
nulls, returns the zeroed record on an empty series, otherwise runs the
three univariate methods; the combined outlier percentage is the size
of the union of the three index sets over the non-null count times 100,
and outlier_values samples the series at the first 100 indices of the
ascending sort of the union (the source checks idx < len(series);
`List.get?` models that check). -/
def detectColumnOutliers (name : String) (zt mt : ℚ) (values : List Cell) :
    OutlierInfo :=
  let s := dropNulls values
  if s.length = 0 then
    { column_name := name, total_count := 0
      iqr_outliers := [], iqr_outlier_count := 0
      iqr_lower_bound := 0, iqr_upper_bound := 0
      zscore_outliers := [], zscore_outlier_count := 0
      zscore_threshold := zt
      mad_outliers := [], mad_outlier_count := 0
      mad_threshold := mt
      outlier_percentage := 0, outlier_values := [] }
  else
    let iqrRes := detectIqrOutliers s
    let zs := detectZscoreOutliers zt s
    let mad := detectMadOutliers mt s
    let union := combinedOutlierIndices iqrRes.1 zs mad
    let sortedUnion := List.insertionSort (fun a b => a ≤ b) union
    { column_name := name, total_count := s.length
      iqr_outliers := iqrRes.1.take 1000
      iqr_outlier_count := iqrRes.1.length
      iqr_lower_bound := iqrRes.2.1, iqr_upper_bound := iqrRes.2.2
      zscore_outliers := zs.take 1000, zscore_outlier_count := zs.length
      zscore_threshold := zt
      mad_outliers := mad.take 1000, mad_outlier_count := mad.length
      mad_threshold := mt
      outlier_percentage := (union.length : ℚ) / s.length * 100
      outlier_values := (sortedUnion.take 100).filterMap (fun i => s.get? i) }

/-- The 5-row single numeric column of testable-properties Scenario 1. -/
def scenario1Column : List Cell := [some 1, some 2, some 3, some 4, some 100]

/-- Helper: the non-null values of the Scenario 1 column. -/
lemma s1_drop : dropNulls scenario1Column = [1, 2, 3, 4, 100] := by
  simp [dropNulls, scenario1Column]

/-- Helper: sorting the Scenario 1 data leaves it unchanged. -/
lemma s1_sort : sortQ [1, 2, 3, 4, 100] = [1, 2, 3, 4, 100] := by
  norm_num [sortQ, List.insertionSort, List.orderedInsert]

/-- Helper: evaluation of Int.toNat on the literal 3. -/
lemma int3_toNat : ((3 : ℤ)).toNat = 3 := rfl

/-- Helper: evaluation of Int.toNat on the literal 2. -/
lemma int2_toNat : ((2 : ℤ)).toNat = 2 := rfl

/-- Helper: Q1 of the Scenario 1 data under linear interpolation. -/
lemma s1_q1 : quantileLinear [1, 2, 3, 4, 100] (1/4) = 2 := by
  norm_num [quantileLinear, s1_sort, List.getD]

/-- Helper: Q3 of the Scenario 1 data under linear interpolation. -/
lemma s1_q3 : quantileLinear [1, 2, 3, 4, 100] (3/4) = 4 := by
  norm_num [quantileLinear, s1_sort, List.getD, int3_toNat]

/-- Helper: the IQR method on the Scenario 1 data: bounds (-1, 7), the
single flagged index 4 (the value 100). -/
lemma s1_iqr : detectIqrOutliers [1, 2, 3, 4, 100] = ([4], -1, 7) := by
  norm_num [detectIqrOutliers, s1_q1, s1_q3, maskIndices,
    List.enum, List.enumFrom, List.filterMap]

/-- Helper: the z-score method at threshold 3 flags nothing on the
Scenario 1 data (mean 22, sample variance 1902.5, and
78 squared = 6084 < 9 * 1902.5 = 17122.5). -/
lemma s1_zscore : detectZscoreOutliers 3 [1, 2, 3, 4, 100] = [] := by
  norm_num [detectZscoreOutliers, sampleVar, devPowSum, meanQ, maskIndices,
    List.enum, List.enumFrom, List.filterMap]

/-- Helper: the median of the Scenario 1 data is 3. -/
lemma s1_median : medianQ [1, 2, 3, 4, 100] = 3 := by
  norm_num [medianQ, quantileLinear, s1_sort, List.getD, int2_toNat]

/-- Helper: the MAD method at threshold 3.5 flags index 4 on the
Scenario 1 data (median 3, MAD 1). -/
lemma s1_mad : detectMadOutliers (7/2) [1, 2, 3, 4, 100] = [4] := by
  have hdev : medianQ [2, 1, 0, 1, 97] = 1 := by
    norm_num [medianQ, quantileLinear, sortQ,
      List.insertionSort, List.orderedInsert, List.getD, int2_toNat]
  norm_num [detectMadOutliers, s1_median, hdev, maskIndices,
    List.enum, List.enumFrom, List.filterMap, abs]

/-- Helper: List.get? at the literal index 4. -/
lemma s1_get4 : ([1, 2, 3, 4, 100] : List ℚ)[4]? = some 100 := rfl

/-- Helper: the union of the three index lists on Scenario 1. -/
lemma s1_union : combinedOutlierIndices [4] [] [4] = [4] := by decide

/-- Helper: the full outlier record of the Scenario 1 column under the
default thresholds. -/
lemma s1_detect :
    detectColumnOutliers "value" 3 (35/10) scenario1Column =
      { column_name := "value", total_count := 5
        iqr_outliers := [4], iqr_outlier_count := 1
        iqr_lower_bound := -1, iqr_upper_bound := 7
        zscore_outliers := [], zscore_outlier_count := 0
        zscore_threshold := 3
        mad_outliers := [4], mad_outlier_count := 1
        mad_threshold := 35/10
        outlier_percentage := 20, outlier_values := [100] } := by
  norm_num [detectColumnOutliers, s1_drop, s1_iqr, s1_zscore, s1_mad,
    s1_union, List.insertionSort, List.orderedInsert, List.filterMap, s1_get4]

/-- C3, counterexample: on the dataset [1, 2, 3, 4, 100] the
linear-interpolated quartiles are Q1 = 2 and Q3 = 4, so the IQR bounds
computed by `detectColumnOutliers` with the default thresholds are
exactly (-1, 7); they are not the approximately (-1.5, 7.5) the claim
states (each computed bound is a full 1/2 away from the value the
claim gives, far beyond any reading of "approximately" for values
quoted to one decimal place). -/
theorem C3_counterexample :
    quantileLinear (dropNulls scenario1Column) (1/4) = 2 ∧
    quantileLinear (dropNulls scenario1Column) (3/4) = 4 ∧
    (detectColumnOutliers "value" 3 (35/10) scenario1Column).iqr_lower_bound
      = -1 ∧
    (detectColumnOutliers "value" 3 (35/10) scenario1Column).iqr_upper_bound
      = 7 ∧
    |(-1 : ℚ) - (-3/2)| = 1/2 ∧ |(7 : ℚ) - 15/2| = 1/2 := by
  rw [s1_drop, s1_detect]
  norm_num [s1_q1, s1_q3, abs]

/-- C3, amended: on the 5-row dataset [1, 2, 3, 4, 100], outlier
detection with the default thresholds produces the IQR bounds exactly
(-1, 7), computed as [Q1 - 1.5 IQR, Q3 + 1.5 IQR] from the
linear-interpolated quartiles Q1 = 2 and Q3 = 4; the value 100 (index
4 of the series) is flagged as an outlier by the IQR method and is
NOT flagged by the z-score method at the default threshold 3.0 (its
squared z-score 6084/1902.5 is below 9, i.e. its z-score is about
1.79 < 3). -/
theorem C3_amended :
    (detectColumnOutliers "value" 3 (35/10) scenario1Column).iqr_lower_bound
      = -1 ∧
    (detectColumnOutliers "value" 3 (35/10) scenario1Column).iqr_upper_bound
      = 7 ∧
    (detectColumnOutliers "value" 3 (35/10) scenario1Column).iqr_outliers
      = [4] ∧
    (dropNulls scenario1Column).get? 4 = some 100 ∧
    (detectColumnOutliers "value" 3 (35/10) scenario1Column).zscore_outliers
      = [] ∧
    (100 - meanQ (dropNulls scenario1Column)) ^ 2
      < 3 ^ 2 * sampleVar (dropNulls scenario1Column) := by
  rw [s1_drop, s1_detect]
  norm_num [sampleVar, devPowSum, meanQ, s1_get4]

/-! ## C7: skewness/kurtosis of StatisticsAnalyzer vs DistributionAnalyzer -/

/-- Embedding of `StatisticsAnalyzer._calculate_kurtosis`
(src/src/core/statistics.py lines 365-374): 0 when n < 4 or the
standard deviation is 0, otherwise the mean fourth power of deviations
divided by std⁴, minus 3.  std is the float square root of the polars
sample variance (ddof = 1), so std⁴ = sampleVar² and std = 0 iff
sampleVar = 0; the embedding needs no square root. -/
def statsKurtosis (xs : List ℚ) : ℚ :=
  if xs.length < 4 ∨ sampleVar xs = 0 then 0
  else popMoment xs 4 / (sampleVar xs) ^ 2 - 3

/-- Embedding of `DistributionAnalyzer._calculate_kurtosis`
(src/src/core/distributions.py lines 221-230): 0 when n < 4, otherwise
`scipy.stats.kurtosis` at its defaults (fisher=True, bias=True), which
is the population fourth standardized moment minus 3, i.e.
m4 / m2² - 3 with m2 the population (ddof = 0) variance.  scipy
produces NaN when m2 = 0; every statement below about the nonzero
branch carries a nonzero-variance hypothesis, so that case never
arises in a proof. -/
def distKurtosis (xs : List ℚ) : ℚ :=
  if xs.length < 4 then 0
  else popMoment xs 4 / (popMoment xs 2) ^ 2 - 3

/-- Embedding of `StatisticsAnalyzer._calculate_skewness`
(src/src/core/statistics.py lines 354-363) under the signed-square
encoding: the source float is s = m3/std³ (0 when n < 3 or std = 0)
with m3 the population third central moment and std the float square
root of the sample variance; the definition stores s·|s|, which is
m3·|m3|/sampleVar³ since std⁶ = sampleVar³.  x ↦ x·|x| is a strictly
monotone bijection of the reals, so being zero, sign, equality and
rescaling relations of the source values transfer exactly and no
square root is needed. -/
def statsSkewnessSgnSq (xs : List ℚ) : ℚ :=
  if xs.length < 3 ∨ sampleVar xs = 0 then 0
  else popMoment xs 3 * |popMoment xs 3| / (sampleVar xs) ^ 3

/-- Embedding of `DistributionAnalyzer._calculate_skewness`
(src/src/core/distributions.py lines 210-219) under the same
signed-square encoding: 0 when n < 3, otherwise `scipy.stats.skew` at
its default (bias=True), the population third standardized moment
s = m3/m2^(3/2) with m2 the population (ddof 0) variance; the
definition stores s·|s| = m3·|m3|/m2³.  scipy produces NaN when
m2 = 0; every statement below about the nonzero branch carries a
nonzero-variance hypothesis, so that case never arises in a proof. -/
def distSkewnessSgnSq (xs : List ℚ) : ℚ :=
  if xs.length < 3 then 0
  else popMoment xs 3 * |popMoment xs 3| / (popMoment xs 2) ^ 3

/-- C7, counterexample: on the four-element column [0, 0, 0, 1] the
kurtosis reported by the DistributionAnalyzer is -2/3 (population
standardization, scipy bias=True) while the moment-based formula of
the StatisticsAnalyzer gives -27/16 (it divides the population fourth
central moment by the fourth power of the SAMPLE standard deviation),
so the two reported values differ and the claim fails. -/
theorem C7_counterexample :
    statsKurtosis [0, 0, 0, 1] = -27/16 ∧
    distKurtosis [0, 0, 0, 1] = -2/3 ∧
    (-27/16 : ℚ) ≠ -2/3 := by
  norm_num [statsKurtosis, distKurtosis, popMoment, sampleVar, devPowSum,
    meanQ]

/-- C7, amended: the two analyzers agree in the central-moment
numerators but standardize differently — the DistributionAnalyzer
(scipy with bias=True) divides by powers of the population (ddof 0)
standard deviation, the StatisticsAnalyzer by powers of the polars
sample (ddof 1) standard deviation.  Precisely, with n the non-null
count: for n ≥ 4 and nonzero sample variance,
statsKurtosis + 3 = ((n-1)/n)² · (distKurtosis + 3); for n ≥ 3 and
nonzero sample variance the signed squares of the two skewness values
satisfy statsSkewnessSgnSq = ((n-1)/n)³ · distSkewnessSgnSq, which
under the bijective encoding is exactly the source rescaling
statsSkew = ((n-1)/n)^(3/2) · distSkew; and below the minimum sample
sizes (4 for kurtosis, 3 for skewness) both analyzers still return
0. -/
theorem C7_amended :
    (∀ xs : List ℚ, 4 ≤ xs.length → sampleVar xs ≠ 0 →
      statsKurtosis xs + 3
        = (((xs.length : ℚ) - 1) / (xs.length : ℚ)) ^ 2
            * (distKurtosis xs + 3)) ∧
    (∀ xs : List ℚ, 3 ≤ xs.length → sampleVar xs ≠ 0 →
      statsSkewnessSgnSq xs
        = (((xs.length : ℚ) - 1) / (xs.length : ℚ)) ^ 3
            * distSkewnessSgnSq xs) ∧
    (∀ xs : List ℚ, xs.length < 4 →
      statsKurtosis xs = 0 ∧ distKurtosis xs = 0) ∧
    (∀ xs : List ℚ, xs.length < 3 →
      statsSkewnessSgnSq xs = 0 ∧ distSkewnessSgnSq xs = 0) := by
  refine ⟨?_, ?_, ?_, ?_⟩
  · intro xs h4 hv
    have hn4 : (4 : ℚ) ≤ (xs.length : ℚ) := by exact_mod_cast h4
    have hn0 : (xs.length : ℚ) ≠ 0 := by linarith
    have hn1 : (xs.length : ℚ) - 1 ≠ 0 := by
      intro h
      have : (xs.length : ℚ) = 1 := by linarith
      linarith
    have hD : devPowSum xs 2 ≠ 0 := by
      intro h
      exact hv (by simp [sampleVar, h])
    have hnotlt : ¬ xs.length < 4 := by omega
    have hm2 : popMoment xs 2 ≠ 0 := by
      simp only [popMoment]
      exact div_ne_zero hD hn0
    rw [statsKurtosis, distKurtosis, if_neg (by tauto), if_neg hnotlt]
    have hsv : sampleVar xs = devPowSum xs 2 / ((xs.length : ℚ) - 1) := rfl
    have hp2 : popMoment xs 2 = devPowSum xs 2 / (xs.length : ℚ) := rfl
    field_simp [hsv, hp2]
    ring
  · intro xs h3 hv
    have hn3 : (3 : ℚ) ≤ (xs.length : ℚ) := by exact_mod_cast h3
    have hn0 : (xs.length : ℚ) ≠ 0 := by linarith
    have hn1 : (xs.length : ℚ) - 1 ≠ 0 := by
      intro h
      have : (xs.length : ℚ) = 1 := by linarith
      linarith
    have hD : devPowSum xs 2 ≠ 0 := by
      intro h
      exact hv (by simp [sampleVar, h])
    have hnotlt : ¬ xs.length < 3 := by omega
    have hm2 : popMoment xs 2 ≠ 0 := by
      simp only [popMoment]
      exact div_ne_zero hD hn0
    rw [statsSkewnessSgnSq, distSkewnessSgnSq, if_neg (by tauto),
      if_neg hnotlt]
    have hsv : sampleVar xs = devPowSum xs 2 / ((xs.length : ℚ) - 1) := rfl
    have hp2 : popMoment xs 2 = devPowSum xs 2 / (xs.length : ℚ) := rfl
    field_simp [hsv, hp2]
    ring
  · intro xs h
    exact ⟨by rw [statsKurtosis, if_pos (Or.inl h)],
      by rw [distKurtosis, if_pos h]⟩
  · intro xs h
    exact ⟨by rw [statsSkewnessSgnSq, if_pos (Or.inl h)],
      by rw [distSkewnessSgnSq, if_pos h]⟩

/-- C7, witness: both rescaling relations instantiated at the
concrete column [0, 0, 0, 1] (n = 4, sample variance 1/4):
-27/16 + 3 = (3/4)² · (-2/3 + 3) for kurtosis and
9/16 = (3/4)³ · 4/3 for the signed-square skewness values. -/
theorem C7_witness :
    (statsKurtosis [0, 0, 0, 1] + 3
      = (((([0, 0, 0, 1] : List ℚ).length : ℚ) - 1)
            / (([0, 0, 0, 1] : List ℚ).length : ℚ)) ^ 2
          * (distKurtosis [0, 0, 0, 1] + 3)) ∧
    (statsSkewnessSgnSq [0, 0, 0, 1]
      = (((([0, 0, 0, 1] : List ℚ).length : ℚ) - 1)
            / (([0, 0, 0, 1] : List ℚ).length : ℚ)) ^ 3
          * distSkewnessSgnSq [0, 0, 0, 1]) :=
  ⟨C7_amended.1 [0, 0, 0, 1] (by norm_num)
      (by norm_num [sampleVar, devPowSum, meanQ]),
   C7_amended.2.1 [0, 0, 0, 1] (by norm_num)
      (by norm_num [sampleVar, devPowSum, meanQ])⟩

/-! ## C4: the memoizing cache of the AnalysisCoordinator

The six analysis methods of `DataAnalyzer` (src/src/core/analyzer.py
lines 66-192) share one shape: look the kind up in `self._cache`,
return the hit, otherwise run the detector, store and return.  The
detectors are deterministic functions of the held dataframe, modelled
here by an arbitrary `compute` function; the mutable `self._cache`
dict becomes explicit state passing, and the third component of the
result counts how many detector runs the call performed. -/

/-- The closed enumeration of cache keys used by the coordinator. -/
inductive AnalysisKind where
  | schema | statistics | missing | outliers | correlations | distributions
deriving DecidableEq, Repr

/-- The per-instance cache `self._cache`, one optional slot per kind. -/
structure AnalysisCache (R : Type) where
  schema : Option R := none
  statistics : Option R := none
  missing : Option R := none
  outliers : Option R := none
  correlations : Option R := none
  distributions : Option R := none
deriving DecidableEq, Repr

/-- Lookup `kind in self._cache`. -/
def cacheGet {R : Type} (k : AnalysisKind) (c : AnalysisCache R) : Option R :=
  match k with
  | .schema => c.schema
  | .statistics => c.statistics
  | .missing => c.missing
  | .outliers => c.outliers
  | .correlations => c.correlations
  | .distributions => c.distributions

/-- Store `self._cache[kind] = v`. -/
def cacheSet {R : Type} (k : AnalysisKind) (v : R) (c : AnalysisCache R) :
    AnalysisCache R :=
  match k with
  | .schema => { c with schema := some v }
  | .statistics => { c with statistics := some v }
  | .missing => { c with missing := some v }
  | .outliers => { c with outliers := some v }
  | .correlations => { c with correlations := some v }
  | .distributions => { c with distributions := some v }

/-- Embedding of the shared body of `analyze_schema`,
`analyze_statistics`, `analyze_missing`, `analyze_outliers`,
`analyze_correlations` and `analyze_distributions`: cache hit returns
the stored result without running a detector (0 runs); a miss runs the
detector once, stores the result and returns it.  `compute k df` is
the detector for kind `k` on dataframe `df` (the detectors read only
`self.df`, which never changes after `__init__`). -/
def runAnalysis {DF R : Type} (compute : AnalysisKind → DF → R)
    (k : AnalysisKind) (df : DF) (c : AnalysisCache R) :
    R × AnalysisCache R × ℕ :=
  match cacheGet k c with
  | some v => (v, c, 0)
  | none => (compute k df, cacheSet k (compute k df) c, 1)

/-- Helper: looking a kind up right after storing it yields the stored
value. -/
lemma cacheGet_cacheSet {R : Type} (k : AnalysisKind) (v : R)
    (c : AnalysisCache R) : cacheGet k (cacheSet k v c) = some v := by
  cases k <;> rfl

/-- C4, confirmed: for every dataframe, every detector family and
every analysis kind, calling the coordinator analysis method a second
time on the unmodified instance returns exactly the first call result,
leaves the cache unchanged, and runs the detector zero further times
(the kind is computed at most once and the repeat is served from the
per-instance cache). -/
theorem C4_cache_idempotent {DF R : Type}
    (compute : AnalysisKind → DF → R) (k : AnalysisKind) (df : DF)
    (c : AnalysisCache R) :
    runAnalysis compute k df (runAnalysis compute k df c).2.1
      = ((runAnalysis compute k df c).1,
         (runAnalysis compute k df c).2.1, 0) := by
  unfold runAnalysis
  cases h : cacheGet k c with
  | some v => simp [h]
  | none => simp [h, cacheGet_cacheSet]

/-! ## The dataframe model

The engine reads a polars DataFrame only through: column enumeration,
per-column dtype (the claims need just whether it is Int/UInt/Float),
per-column values with nulls, and the row count.  polars enforces that
all columns share one length and that names are unique, so selecting
columns by the names returned from the same dataframe is selecting the
columns themselves. -/

/-- One dataframe column: its name, whether its dtype string contains
Int/UInt/Float (the numeric test used throughout the source), and its
cells. -/
structure Column where
  name : String
  numeric : Bool
  values : List Cell
deriving DecidableEq, Repr

/-- A dataframe: the row count (`len(df)`) and the columns. -/
structure DataFrame where
  nRows : ℕ
  cols : List Column
deriving DecidableEq, Repr

/-- Well-formedness, guaranteed by polars: every column has exactly
nRows cells. -/
def DFWF (df : DataFrame) : Prop :=
  ∀ c ∈ df.cols, c.values.length = df.nRows

/-- Embedding of `_get_numeric_columns` (identical in outliers.py,
correlations.py, distributions.py): the columns whose dtype contains
Int, UInt or Float, in order. -/
def numericCols (df : DataFrame) : List Column :=
  df.cols.filter (·.numeric)

/-- Row i of a selection of columns (polars row access; out-of-range
reads cannot occur on well-formed data and default to null). -/
def jointRows (cs : List Column) (n : ℕ) : List (List Cell) :=
  (List.range n).map (fun i => cs.map (fun c => c.values.getD i none))

/-- A row with no null becomes the list of its values; a row with any
null is dropped (the rowwise reading of `DataFrame.drop_nulls`). -/
def seqCells : List Cell → Option (List ℚ)
  | [] => some []
  | none :: _ => none
  | some x :: rest => (seqCells rest).map (fun l => x :: l)

/-- Embedding of `self.df.select(columns).drop_nulls()` viewed as its
list of rows. -/
def droppedRows (cs : List Column) (n : ℕ) : List (List ℚ) :=
  (jointRows cs n).filterMap seqCells

/-! ## C5: when multivariate outlier detection is skipped -/

/-- Record mirroring the `MultivariatOutlierInfo` dataclass of
src/datatui/core/outliers.py. -/
structure MultivariatOutlierInfo where
  total_count : ℕ
  outlier_indices : List ℕ
  outlier_count : ℕ
  outlier_percentage : ℚ
  contamination : ℚ
deriving DecidableEq, Repr

/-- Embedding of `OutlierDetector.detect_multivariate_outliers`
(src/datatui/core/outliers.py lines 160-218).  The isolation forest is
external library code (sklearn); it enters as the function `iso`
mapping the filtered rows and the contamination to the flagged row
indices.  The three early returns (no columns, empty filtered frame,
fewer than 2 filtered rows) are reproduced literally. -/
def detectMultivariateOutliers (iso : List (List ℚ) → ℚ → List ℕ)
    (df : DataFrame) (columns : List Column) (contamination : ℚ) :
    MultivariatOutlierInfo :=
  if columns.length = 0 then
    { total_count := df.nRows, outlier_indices := [], outlier_count := 0
      outlier_percentage := 0, contamination := contamination }
  else
    let subset := droppedRows columns df.nRows
    if subset.length = 0 then
      { total_count := 0, outlier_indices := [], outlier_count := 0
        outlier_percentage := 0, contamination := contamination }
    else if subset.length < 2 then
      { total_count := subset.length, outlier_indices := []
        outlier_count := 0, outlier_percentage := 0
        contamination := contamination }
    else
      let idxs := iso subset contamination
      { total_count := subset.length
        outlier_indices := idxs.take 1000
        outlier_count := idxs.length
        outlier_percentage := (idxs.length : ℚ) / subset.length * 100
        contamination := contamination }

/-- Embedding of the multivariate part of `DataAnalyzer.analyze_outliers`
(src/src/core/analyzer.py lines 96-123): unless the caller passes
skip_multivariate, the forest is attempted exactly when more than one
numeric column exists and the row count is strictly below 100000, with
contamination 0.1; otherwise the multivariate entry stays None.  (The
enclosing try/except sets None on a raising sklearn call; the model
treats `iso` as total, which is what the claims quantify over.) -/
def analyzeOutliersMultivariate (iso : List (List ℚ) → ℚ → List ℕ)
    (df : DataFrame) (skipMultivariate : Bool) :
    Option MultivariatOutlierInfo :=
  if skipMultivariate then none
  else if 1 < (numericCols df).length ∧ df.nRows < 100000 then
    some (detectMultivariateOutliers iso df (numericCols df) (1/10))
  else none

/-- The two-numeric-column dataframe whose columns are never null in
the same row: its filtered (jointly non-null) row count is 0. -/
def c5df : DataFrame :=
  { nRows := 3
    cols := [ { name := "a", numeric := true
                values := [some 1, none, some 2] }
            , { name := "b", numeric := true
                values := [none, some 5, none] } ] }

/-- The fully non-null two-numeric-column dataframe with exactly
100,000 rows: the boundary of the multivariate size cut. -/
def df100k : DataFrame :=
  { nRows := 100000
    cols := [ { name := "x", numeric := true
                values := List.replicate 100000 (some 1) }
            , { name := "y", numeric := true
                values := List.replicate 100000 (some 2) } ] }

/-- Helper: filterMap of a constant list along a function that is Some
on the repeated element. -/
lemma replicate_filterMap_some {α β : Type} (f : α → Option β) (a : α)
    (b : β) (hf : f a = some b) (n : ℕ) :
    (List.replicate n a).filterMap f = List.replicate n b := by
  induction n with
  | zero => simp
  | succ n ih => simp [List.replicate_succ, List.filterMap_cons, hf, ih]

/-- Helper: the joint rows of `df100k` are 100,000 copies of the
fully non-null row. -/
lemma df100k_jointRows :
    jointRows df100k.cols 100000
      = List.replicate 100000 [some 1, some 2] := by
  unfold jointRows
  rw [List.map_congr_left (g := fun _ => ([some 1, some 2] : List Cell))]
  · rw [List.map_const', List.length_range]
  · intro i hi
    have h : i < 100000 := List.mem_range.mp hi
    show [(List.replicate 100000 (some (1:ℚ))).getD i none,
          (List.replicate 100000 (some (2:ℚ))).getD i none]
        = [some 1, some 2]
    simp only [List.getD_eq_getElem?_getD, List.getElem?_replicate, h,
      if_true, Option.getD_some]

/-- Helper: the filtered (jointly non-null) rows of `df100k` number
100,000. -/
lemma df100k_dropped :
    droppedRows (numericCols df100k) df100k.nRows
      = List.replicate 100000 [1, 2] := by
  have hsel : numericCols df100k = df100k.cols := rfl
  unfold droppedRows
  rw [hsel]
  show (jointRows df100k.cols 100000).filterMap seqCells = _
  rw [df100k_jointRows]
  exact replicate_filterMap_some seqCells [some 1, some 2] [1, 2] rfl _

/-- C5, counterexample, two failing inputs.  First, on `c5df` (two
numeric columns, 3 rows, never jointly non-null) the filtered row
count is 0 < 2, so by the claim multivariate detection should be
skipped entirely, returning no result; the code instead returns a
present (Some) zeroed MultivariatOutlierInfo record.  Second, on
`df100k` (two numeric columns, exactly 100,000 fully non-null rows)
none of the claim skip conditions holds — there are 2 numeric columns,
the filtered row count is 100,000 ≥ 2 and the dataset does not exceed
100,000 rows — yet the code skips (the cut is rows < 100000). -/
theorem C5_counterexample :
    (analyzeOutliersMultivariate (fun _ _ => []) c5df false
      = some { total_count := 0, outlier_indices := [], outlier_count := 0
               outlier_percentage := 0, contamination := 1/10 } ∧
     (droppedRows (numericCols c5df) c5df.nRows).length < 2) ∧
    (analyzeOutliersMultivariate (fun _ _ => []) df100k false = none ∧
     (numericCols df100k).length = 2 ∧
     2 ≤ (droppedRows (numericCols df100k) df100k.nRows).length ∧
     ¬ 100000 < df100k.nRows) := by
  constructor
  · constructor
    · norm_num [analyzeOutliersMultivariate, numericCols,
        detectMultivariateOutliers, droppedRows, jointRows, seqCells, c5df,
        List.range_succ, List.filterMap, List.getD]
    · norm_num [droppedRows, jointRows, seqCells, numericCols, c5df,
        List.range_succ, List.filterMap, List.getD]
  · refine ⟨rfl, rfl, ?_, by norm_num [df100k]⟩
    rw [df100k_dropped, List.length_replicate]
    norm_num

/-- Helper: the contamination recorded in a multivariate result is the
contamination that was passed. -/
lemma detectMultivariate_contamination
    (iso : List (List ℚ) → ℚ → List ℕ) (df : DataFrame)
    (columns : List Column) (c : ℚ) :
    (detectMultivariateOutliers iso df columns c).contamination = c := by
  unfold detectMultivariateOutliers
  dsimp only []
  repeat' split
  all_goals rfl

/-- Helper: with fewer than 2 filtered rows the multivariate record
carries zero outliers. -/
lemma detectMultivariate_degenerate
    (iso : List (List ℚ) → ℚ → List ℕ) (df : DataFrame)
    (columns : List Column) (c : ℚ)
    (h : (droppedRows columns df.nRows).length < 2) :
    (detectMultivariateOutliers iso df columns c).outlier_count = 0 := by
  unfold detectMultivariateOutliers
  dsimp only []
  repeat' split
  all_goals first | rfl | omega

/-- C5, amended: with skip_multivariate off, the multivariate entry is
absent (None) exactly when fewer than 2 numeric columns exist or the
dataset has at least 100,000 rows; otherwise a record is always
produced with contamination 0.1, and when the row count after dropping
rows with any null in the numeric columns is below 2 that record is a
zeroed one (no flagged outliers) rather than an absent result. -/
theorem C5_amended (iso : List (List ℚ) → ℚ → List ℕ) (df : DataFrame) :
    (analyzeOutliersMultivariate iso df false = none
        ↔ (numericCols df).length < 2 ∨ 100000 ≤ df.nRows) ∧
    (∀ r, analyzeOutliersMultivariate iso df false = some r →
        r.contamination = 1/10 ∧
        ((droppedRows (numericCols df) df.nRows).length < 2 →
          r.outlier_count = 0)) := by
  unfold analyzeOutliersMultivariate
  simp only [Bool.false_eq_true, if_false]
  by_cases h : 1 < (numericCols df).length ∧ df.nRows < 100000
  · rw [if_pos h]
    constructor
    · simp only [reduceCtorEq, false_iff]
      omega
    · intro r hr
      have hr' : r = detectMultivariateOutliers iso df (numericCols df) (1/10) :=
        (Option.some_injective _ hr).symm
      subst hr'
      exact ⟨detectMultivariate_contamination _ _ _ _,
        fun hlt => detectMultivariate_degenerate _ _ _ _ hlt⟩
  · rw [if_neg h]
    constructor
    · simp only [true_iff]
      omega
    · intro r hr
      exact absurd hr (by simp)

/-! ## C8: zeroed records on empty input

Embedding of `StatisticsAnalyzer._analyze_numeric`
(src/src/core/statistics.py lines 111-189) and of the per-column part
of `MissingAnalyzer` (src/datatui/core/missing.py lines 60-76).

Three fields of the Python `NumericStats` are irrational-valued floats
(std = √variance, cv = std/mean, skewness = m3/std³).  The embedding
stores each under a bijective polynomial re-coordinatization so that
everything stays inside ℚ: `std_sq` is the square of the source std
(equal to the variance), and `cv_sgnsq`/`skewness_sgnsq` store s·|s|
for the source value s (x ↦ x·|x| is a strictly monotone bijection of
the reals, so being zero — all the claims need — and order/equality
transfer exactly). -/

/-- Record mirroring the `NumericStats` dataclass of
src/src/core/statistics.py; `std_sq`, `skewness_sgnsq` and `cv_sgnsq`
carry the square-form encodings described above. -/
structure NumericStats where
  count : ℕ
  null_count : ℕ
  mean : ℚ
  median : ℚ
  mode : Option ℚ
  std_sq : ℚ
  variance : ℚ
  min : ℚ
  max : ℚ
  range : ℚ
  q25 : ℚ
  q50 : ℚ
  q75 : ℚ
  iqr : ℚ
  skewness_sgnsq : ℚ
  kurtosis : ℚ
  cv_sgnsq : ℚ
  sum : ℚ
  zero_count : ℕ
  negative_count : ℕ
  positive_count : ℕ
deriving DecidableEq, Repr

/-- Embedding of `StatisticsAnalyzer._calculate_mode`: the first
value of `value_counts` sorted by count descending.  polars leaves the
order among equally frequent values unspecified; the model resolves
the tie to the first-appearing most frequent value. -/
def modeQ (xs : List ℚ) : Option ℚ :=
  xs.dedup.argmax (fun v => xs.count v)

/-- Embedding of `StatisticsAnalyzer._analyze_numeric`
(src/src/core/statistics.py lines 111-189): the all-zero record when
the column has no non-null value, the full per-column statistics
otherwise (cv is 0 when the mean is 0, per the source). -/
def analyzeNumeric (series : List Cell) : NumericStats :=
  let nn := dropNulls series
  let count := nn.length
  let null_count := series.countP (·.isNone)
  if count = 0 then
    { count := 0, null_count := null_count
      mean := 0, median := 0, mode := none
      std_sq := 0, variance := 0
      min := 0, max := 0, range := 0
      q25 := 0, q50 := 0, q75 := 0, iqr := 0
      skewness_sgnsq := 0, kurtosis := 0, cv_sgnsq := 0
      sum := 0, zero_count := 0, negative_count := 0, positive_count := 0 }
  else
    let mn := (nn.minimum?).getD 0
    let mx := (nn.maximum?).getD 0
    let q25 := quantileLinear nn (1/4)
    let q75 := quantileLinear nn (3/4)
    { count := count, null_count := null_count
      mean := meanQ nn, median := medianQ nn, mode := modeQ nn
      std_sq := sampleVar nn, variance := sampleVar nn
      min := mn, max := mx, range := mx - mn
      q25 := q25, q50 := quantileLinear nn (1/2), q75 := q75
      iqr := q75 - q25
      skewness_sgnsq := statsSkewnessSgnSq nn
      kurtosis := statsKurtosis nn
      cv_sgnsq := if meanQ nn = 0 then 0
                  else sampleVar nn / (meanQ nn * |meanQ nn|)
      sum := nn.sum
      zero_count := nn.countP (fun x => decide (x = 0))
      negative_count := nn.countP (fun x => decide (x < 0))
      positive_count := nn.countP (fun x => decide (0 < x)) }

/-- Record mirroring the `ColumnMissingInfo` dataclass of
src/datatui/core/missing.py. -/
structure ColumnMissingInfo where
  column_name : String
  missing_count : ℕ
  present_count : ℕ
  missing_percentage : ℚ
  total_count : ℕ
deriving DecidableEq, Repr

/-- Embedding of the per-column loop of `MissingAnalyzer._analyze_columns`
(src/datatui/core/missing.py lines 60-76): missing = null count,
present = total - missing, percentage = missing/total · 100 guarded by
total > 0. -/
def analyzeColumnMissing (name : String) (values : List Cell)
    (totalRows : ℕ) : ColumnMissingInfo :=
  let missing := values.countP (·.isNone)
  { column_name := name
    missing_count := missing
    present_count := totalRows - missing
    missing_percentage :=
      if 0 < totalRows then (missing : ℚ) / totalRows * 100 else 0
    total_count := totalRows }

/-- Helper: an all-null column has no non-null values. -/
lemma dropNulls_replicate_none (n : ℕ) :
    dropNulls (List.replicate n none) = [] := by
  induction n with
  | zero => rfl
  | succ n ih => simpa [dropNulls, List.replicate_succ, List.filterMap_cons]
      using ih

/-- Helper: every cell of an all-null column counts as missing. -/
lemma countP_isNone_replicate_none (n : ℕ) :
    (List.replicate n (none : Cell)).countP (·.isNone) = n := by
  induction n with
  | zero => rfl
  | succ n ih =>
    rw [List.replicate_succ, List.countP_cons, ih]
    rfl

/-- C8, confirmed on the embedded analyzers: for a numeric column
whose n ≥ 1 values are all null, `_analyze_numeric` returns the
NumericStats record with count = 0 and every derived field at its zero
default (mode None), the outlier detector returns the zeroed
OutlierInfo record, and the MissingAnalyzer reports
missing_percentage = 100.0 for that column; on the zero-row dataset
the same zeroed statistics record is returned (with 0 nulls).  All the
embedded functions are total, the model of never raising. -/
theorem C8_empty_inputs (name : String) (n : ℕ) (h : 0 < n) :
    analyzeNumeric (List.replicate n none)
      = { count := 0, null_count := n
          mean := 0, median := 0, mode := none
          std_sq := 0, variance := 0
          min := 0, max := 0, range := 0
          q25 := 0, q50 := 0, q75 := 0, iqr := 0
          skewness_sgnsq := 0, kurtosis := 0, cv_sgnsq := 0
          sum := 0, zero_count := 0, negative_count := 0
          positive_count := 0 } ∧
    detectColumnOutliers name 3 (7/2) (List.replicate n none)
      = { column_name := name, total_count := 0
          iqr_outliers := [], iqr_outlier_count := 0
          iqr_lower_bound := 0, iqr_upper_bound := 0
          zscore_outliers := [], zscore_outlier_count := 0
          zscore_threshold := 3
          mad_outliers := [], mad_outlier_count := 0
          mad_threshold := 7/2
          outlier_percentage := 0, outlier_values := [] } ∧
    (analyzeColumnMissing name (List.replicate n none) n).missing_percentage
      = 100 ∧
    analyzeNumeric ([] : List Cell)
      = { count := 0, null_count := 0
          mean := 0, median := 0, mode := none
          std_sq := 0, variance := 0
          min := 0, max := 0, range := 0
          q25 := 0, q50 := 0, q75 := 0, iqr := 0
          skewness_sgnsq := 0, kurtosis := 0, cv_sgnsq := 0
          sum := 0, zero_count := 0, negative_count := 0
          positive_count := 0 } := by
  have hn : ((n : ℚ)) ≠ 0 := by exact_mod_cast Nat.pos_iff_ne_zero.mp h
  refine ⟨?_, ?_, ?_, ?_⟩
  · rw [analyzeNumeric]
    simp [dropNulls_replicate_none, countP_isNone_replicate_none]
  · rw [detectColumnOutliers]
    simp [dropNulls_replicate_none]
  · rw [analyzeColumnMissing]
    simp only [countP_isNone_replicate_none, if_pos h]
    field_simp
  · rfl

/-- C8, witness: the theorem applied at the concrete 3-row all-null
column named price (Scenario 2): its missing percentage is 100. -/
theorem C8_witness :
    (analyzeColumnMissing "price" (List.replicate 3 none) 3).missing_percentage
      = 100 :=
  (C8_empty_inputs "price" 3 (by norm_num)).2.2.1

/-! ## C6: regex-based semantic type detection

Embedding of `SchemaDetector._detect_semantic_type`
(src/datatui/core/schema.py lines 127-193).  Each of the five compiled
patterns is a concatenation of character-class repetitions (the one
optional group, in the zipcode pattern, becomes a two-way
alternation), so regex matching is exactly: split the string into
consecutive chunks, one per atom, each chunk inside the class with a
length in the repetition range.  `matchAtoms` decides that by trying
every split, which is the language of the pattern — the semantics, not
the engine, of `re.match` with the anchored `^...$` patterns.  Python
character classes are modelled at ASCII width (the engine profiles
CSV-style data); the explicit classes [0-9], [a-zA-Z] etc. are exact. -/

/-- One `regex atom`: a character class repeated between lo and hi
times (hi = none is unbounded, the + quantifier). -/
structure ReAtom where
  cls : Char → Bool
  lo : ℕ
  hi : Option ℕ

/-- Whether a chunk length is inside the repetition range of an atom. -/
def atomLenOk (a : ReAtom) (k : ℕ) : Bool :=
  decide (a.lo ≤ k) &&
    (match a.hi with
     | none => true
     | some h => decide (k ≤ h))

/-- A character list is in the language of an atom list iff it splits
into consecutive chunks, one per atom, each chunk within its class and
repetition range. -/
def matchAtoms : List ReAtom → List Char → Bool
  | [], cs => cs.isEmpty
  | a :: rest, cs =>
    (List.range (cs.length + 1)).any fun k =>
      atomLenOk a k && (cs.take k).all a.cls && matchAtoms rest (cs.drop k)

/-- A single mandatory literal character. -/
def litAtom (c : Char) : ReAtom := ⟨fun d => d == c, 1, some 1⟩

/-- A single optional literal character. -/
def optAtom (c : Char) : ReAtom := ⟨fun d => d == c, 0, some 1⟩

/-- The class [0-9]. -/
def digitC (c : Char) : Bool := c.isDigit

/-- The class [-\s.] of the phone pattern (ASCII whitespace). -/
def sepC (c : Char) : Bool :=
  c == '-' || c == ' ' || c == '\t' || c == '\n' || c == '\r' || c == '.'

/-- The local-part class [a-zA-Z0-9._%+-] of the email pattern. -/
def emailLocalC (c : Char) : Bool :=
  c.isAlphanum || c == '.' || c == '_' || c == '%' || c == '+' || c == '-'

/-- The domain class [a-zA-Z0-9.-] of the email pattern. -/
def emailDomainC (c : Char) : Bool :=
  c.isAlphanum || c == '.' || c == '-'

/-- EMAIL_PATTERN: `[a-zA-Z0-9._%+-]+@[a-zA-Z0-9.-]+\.[a-zA-Z]{2,}`
anchored. -/
def emailMatch (s : String) : Bool :=
  matchAtoms
    [⟨emailLocalC, 1, none⟩, litAtom '@', ⟨emailDomainC, 1, none⟩,
     litAtom '.', ⟨Char.isAlpha, 2, none⟩] s.toList

/-- URL_PATTERN: `https?://[^\s]+` anchored. -/
def urlMatch (s : String) : Bool :=
  matchAtoms
    [litAtom 'h', litAtom 't', litAtom 't', litAtom 'p', optAtom 's',
     litAtom ':', litAtom '/', litAtom '/',
     ⟨fun c => !(c == ' ' || c == '\t' || c == '\n' || c == '\r'), 1, none⟩]
    s.toList

/-- PHONE_PATTERN:
`\+?\(?[0-9]{1,4}\)?[-\s.]?\(?[0-9]{1,4}\)?[-\s.]?[0-9]{1,9}`
anchored. -/
def phoneMatch (s : String) : Bool :=
  matchAtoms
    [optAtom '+', optAtom '(', ⟨digitC, 1, some 4⟩, optAtom ')',
     ⟨sepC, 0, some 1⟩, optAtom '(', ⟨digitC, 1, some 4⟩, optAtom ')',
     ⟨sepC, 0, some 1⟩, ⟨digitC, 1, some 9⟩] s.toList

/-- IP_PATTERN: `(?:[0-9]{1,3}\.){3}[0-9]{1,3}` anchored. -/
def ipMatch (s : String) : Bool :=
  matchAtoms
    [⟨digitC, 1, some 3⟩, litAtom '.', ⟨digitC, 1, some 3⟩, litAtom '.',
     ⟨digitC, 1, some 3⟩, litAtom '.', ⟨digitC, 1, some 3⟩] s.toList

/-- ZIPCODE_PATTERN: `\d{5}(-\d{4})?` anchored; the optional group is
the two-way alternation. -/
def zipcodeMatch (s : String) : Bool :=
  matchAtoms [⟨digitC, 5, some 5⟩] s.toList ||
  matchAtoms [⟨digitC, 5, some 5⟩, litAtom '-', ⟨digitC, 4, some 4⟩]
    s.toList

/-- The `DataType` enum of src/datatui/core/schema.py. -/
inductive DataTypeT where
  | NUMERIC | CATEGORICAL | DATETIME | TEXT | BOOLEAN | UNKNOWN
deriving DecidableEq, Repr

/-- The `SemanticType` enum of src/datatui/core/schema.py. -/
inductive SemanticType where
  | NONE | ID | EMAIL | URL | PHONE | CURRENCY | ZIPCODE | IP_ADDRESS
  | COORDINATE | PERCENTAGE
deriving DecidableEq, Repr

/-- Python `needle in hay` on strings. -/
def strContains (hay needle : String) : Bool :=
  (List.range (hay.toList.length + 1)).any fun i =>
    needle.toList.isPrefixOf (hay.toList.drop i)

/-- Python `hay.endswith(needle)`. -/
def strEndsWith (hay needle : String) : Bool :=
  needle.toList.isSuffixOf hay.toList

/-- Python `s.lower()` (per-character lowering; ASCII data). -/
def strLower (s : String) : String := ⟨s.toList.map Char.toLower⟩

/-- The source compares `matches / len(sample_str) > 0.8` in float
arithmetic; for integer counts that is exactly 4·len < 5·matches (see
`ratioExceeds80_iff`). -/
def ratioExceeds80 (hits len : ℕ) : Bool :=
  decide (4 * len < 5 * hits)

/-- Helper: the integer form of the 80 percent cut is the float form:
for a nonempty sample, matches/len > 0.8 iff 4·len < 5·matches. -/
lemma ratioExceeds80_iff (m n : ℕ) (h : 0 < n) :
    ratioExceeds80 m n = true ↔ (8 : ℚ)/10 < (m : ℚ) / n := by
  have hn : (0 : ℚ) < (n : ℚ) := by exact_mod_cast h
  rw [ratioExceeds80, decide_eq_true_eq]
  rw [show (8 : ℚ)/10 = 4/5 by norm_num]
  rw [div_lt_div_iff (by norm_num) hn]
  constructor
  · intro hlt
    have : (4 * n : ℚ) < (5 * m : ℚ) := by exact_mod_cast hlt
    linarith
  · intro hlt
    have : (4 * n : ℚ) < (5 * m : ℚ) := by push_cast; linarith
    exact_mod_cast this

/-- Embedding of `SchemaDetector._detect_semantic_type`
(src/datatui/core/schema.py lines 127-193).  `series` is the non-null
value list the caller passes (for a text/categorical column the values
are the strings themselves).  The column-name keyword heuristics come
first, then the five regex checks in the source order over the sample
of the first up-to-100 values, each accepting on strictly more than 80
percent matches. -/
def detectSemanticType (series : List String) (columnName : String)
    (dataType : DataTypeT) : SemanticType :=
  if series.length = 0 then .NONE
  else
    let cl := strLower columnName
    if dataType = .NUMERIC then
      if strContains cl "id" || strEndsWith cl "_id" then .ID
      else if strContains cl "price" || strContains cl "cost" ||
          strContains cl "amount" then .CURRENCY
      else if strContains cl "percent" || strContains cl "pct" ||
          strContains cl "rate" then .PERCENTAGE
      else if strContains cl "lat" || strContains cl "lon" ||
          strContains cl "lng" then .COORDINATE
      else .NONE
    else if dataType = .TEXT ∨ dataType = .CATEGORICAL then
      let sample := series.take 100
      if sample.length = 0 then .NONE
      else if strContains cl "email" then .EMAIL
      else if strContains cl "url" || strContains cl "link" ||
          strContains cl "website" then .URL
      else if strContains cl "phone" || strContains cl "tel" ||
          strContains cl "mobile" then .PHONE
      else if strContains cl "zip" || strContains cl "postal" then .ZIPCODE
      else if strContains cl "ip" then .IP_ADDRESS
      else if ratioExceeds80 (sample.countP emailMatch) sample.length then
        .EMAIL
      else if ratioExceeds80 (sample.countP urlMatch) sample.length then
        .URL
      else if ratioExceeds80 (sample.countP phoneMatch) sample.length then
        .PHONE
      else if ratioExceeds80 (sample.countP ipMatch) sample.length then
        .IP_ADDRESS
      else if ratioExceeds80 (sample.countP zipcodeMatch) sample.length then
        .ZIPCODE
      else .NONE
    else .NONE

/-- The column name x carries none of the text-column keywords of the
source (email, url, link, website, phone, tel, mobile, zip, postal,
ip). -/
def noTextKeyword (cl : String) : Bool :=
  !(strContains cl "email") && !(strContains cl "url") &&
  !(strContains cl "link") && !(strContains cl "website") &&
  !(strContains cl "phone") && !(strContains cl "tel") &&
  !(strContains cl "mobile") && !(strContains cl "zip") &&
  !(strContains cl "postal") && !(strContains cl "ip")

/-- The five-value sample with exactly 80 percent (4 of 5) valid
emails. -/
def c6Series : List String :=
  ["a@b.co", "c@d.co", "e@f.co", "g@h.co", "zzz"]

/-- C6, counterexample: on a text column named x (no keyword applies)
whose 5 sampled values contain exactly 4 email matches — a ratio of
exactly 80 percent, which the claim (at least 80 percent) accepts —
the code assigns no semantic type at all: the source test is the
strict `matches/len > 0.8`. -/
theorem C6_counterexample :
    detectSemanticType c6Series "x" DataTypeT.TEXT = SemanticType.NONE ∧
    ((c6Series.take 100).countP emailMatch : ℚ)
        / (c6Series.take 100).length = 4/5 := by
  constructor
  · decide
  · have h : (c6Series.take 100).countP emailMatch = 4 := by decide
    have hl : (c6Series.take 100).length = 5 := by decide
    rw [h, hl]
    norm_num

/-- Helper: on a nonempty text/categorical column whose lowered name
contains no keyword, semantic detection reduces to the ordered chain
of the five strict 80 percent regex tests. -/
lemma detectSemanticType_text_eval (series : List String) (name : String)
    (dt : DataTypeT) (hdt : dt = DataTypeT.TEXT ∨ dt = DataTypeT.CATEGORICAL)
    (hne : series ≠ []) (hkw : noTextKeyword (strLower name) = true) :
    detectSemanticType series name dt =
      (if ratioExceeds80 ((series.take 100).countP emailMatch)
            (series.take 100).length then SemanticType.EMAIL
       else if ratioExceeds80 ((series.take 100).countP urlMatch)
            (series.take 100).length then SemanticType.URL
       else if ratioExceeds80 ((series.take 100).countP phoneMatch)
            (series.take 100).length then SemanticType.PHONE
       else if ratioExceeds80 ((series.take 100).countP ipMatch)
            (series.take 100).length then SemanticType.IP_ADDRESS
       else if ratioExceeds80 ((series.take 100).countP zipcodeMatch)
            (series.take 100).length then SemanticType.ZIPCODE
       else SemanticType.NONE) := by
  have hlen : ¬ series.length = 0 := by
    simpa [List.length_eq_zero] using hne
  simp only [noTextKeyword, Bool.and_eq_true, Bool.not_eq_true'] at hkw
  obtain ⟨⟨⟨⟨⟨⟨⟨⟨⟨hke, hku⟩, hkl⟩, hkw'⟩, hkp⟩, hkt⟩, hkm⟩, hkz⟩, hkpo⟩,
    hkip⟩ := hkw
  have hnum : ¬ dt = DataTypeT.NUMERIC := by
    rcases hdt with h | h <;> subst h <;> simp
  have hs : ¬ (series.take 100).length = 0 := by
    rw [List.length_take, Nat.min_eq_zero_iff]
    omega
  unfold detectSemanticType
  rw [if_neg hlen]
  dsimp only []
  rw [if_neg hnum, if_pos hdt, if_neg hs]
  simp only [hke, hku, hkl, hkw', hkp, hkt, hkm, hkz, hkpo, hkip,
    Bool.or_false, Bool.false_eq_true, if_false]

/-- C6, amended: for every nonempty text or categorical column whose
name matches no keyword heuristic, the SchemaDetector assigns a
regex-based semantic type from STRICTLY more than 80 percent matches
over the sample of the first up-to-100 non-null values, testing the
patterns in the fixed order email, URL, phone, IP, zipcode and
assigning the first that passes; the semantic type is none exactly
when no pattern passes the strict cut. -/
theorem C6_amended (series : List String) (name : String) (dt : DataTypeT)
    (hdt : dt = DataTypeT.TEXT ∨ dt = DataTypeT.CATEGORICAL)
    (hne : series ≠ []) (hkw : noTextKeyword (strLower name) = true) :
    (detectSemanticType series name dt = SemanticType.EMAIL ↔
      ratioExceeds80 ((series.take 100).countP emailMatch)
        (series.take 100).length = true) ∧
    (detectSemanticType series name dt = SemanticType.URL ↔
      (¬ ratioExceeds80 ((series.take 100).countP emailMatch)
          (series.take 100).length = true ∧
       ratioExceeds80 ((series.take 100).countP urlMatch)
          (series.take 100).length = true)) ∧
    (detectSemanticType series name dt = SemanticType.PHONE ↔
      (¬ ratioExceeds80 ((series.take 100).countP emailMatch)
          (series.take 100).length = true ∧
       ¬ ratioExceeds80 ((series.take 100).countP urlMatch)
          (series.take 100).length = true ∧
       ratioExceeds80 ((series.take 100).countP phoneMatch)
          (series.take 100).length = true)) ∧
    (detectSemanticType series name dt = SemanticType.IP_ADDRESS ↔
      (¬ ratioExceeds80 ((series.take 100).countP emailMatch)
          (series.take 100).length = true ∧
       ¬ ratioExceeds80 ((series.take 100).countP urlMatch)
          (series.take 100).length = true ∧
       ¬ ratioExceeds80 ((series.take 100).countP phoneMatch)
          (series.take 100).length = true ∧
       ratioExceeds80 ((series.take 100).countP ipMatch)
          (series.take 100).length = true)) ∧
    (detectSemanticType series name dt = SemanticType.ZIPCODE ↔
      (¬ ratioExceeds80 ((series.take 100).countP emailMatch)
          (series.take 100).length = true ∧
       ¬ ratioExceeds80 ((series.take 100).countP urlMatch)
          (series.take 100).length = true ∧
       ¬ ratioExceeds80 ((series.take 100).countP phoneMatch)
          (series.take 100).length = true ∧
       ¬ ratioExceeds80 ((series.take 100).countP ipMatch)
          (series.take 100).length = true ∧
       ratioExceeds80 ((series.take 100).countP zipcodeMatch)
          (series.take 100).length = true)) ∧
    (detectSemanticType series name dt = SemanticType.NONE ↔
      (¬ ratioExceeds80 ((series.take 100).countP emailMatch)
          (series.take 100).length = true ∧
       ¬ ratioExceeds80 ((series.take 100).countP urlMatch)
          (series.take 100).length = true ∧
       ¬ ratioExceeds80 ((series.take 100).countP phoneMatch)
          (series.take 100).length = true ∧
       ¬ ratioExceeds80 ((series.take 100).countP ipMatch)
          (series.take 100).length = true ∧
       ¬ ratioExceeds80 ((series.take 100).countP zipcodeMatch)
          (series.take 100).length = true)) := by
  rw [detectSemanticType_text_eval series name dt hdt hne hkw]
  generalize ratioExceeds80 ((series.take 100).countP emailMatch)
      (series.take 100).length = e
  generalize ratioExceeds80 ((series.take 100).countP urlMatch)
      (series.take 100).length = u
  generalize ratioExceeds80 ((series.take 100).countP phoneMatch)
      (series.take 100).length = p
  generalize ratioExceeds80 ((series.take 100).countP ipMatch)
      (series.take 100).length = i
  generalize ratioExceeds80 ((series.take 100).countP zipcodeMatch)
      (series.take 100).length = z
  cases e <;> cases u <;> cases p <;> cases i <;> cases z <;> simp

/-- C6, witness: the amended theorem applied to the concrete text
column named x holding five valid emails (100 percent > 80 percent):
the assigned semantic type is EMAIL. -/
theorem C6_witness :
    detectSemanticType ["a@b.co", "c@d.co", "e@f.co", "g@h.co", "i@j.co"]
        "x" DataTypeT.TEXT = SemanticType.EMAIL :=
  ((C6_amended ["a@b.co", "c@d.co", "e@f.co", "g@h.co", "i@j.co"] "x"
      DataTypeT.TEXT (Or.inl rfl) (by decide) (by decide)).1).mpr
    (by decide)

/-! ## C1 and C2: the composite data quality score

Embedding of `DataAnalyzer.get_data_quality_score`
(src/src/core/analyzer.py lines 258-314) and of the pieces of
`MissingAnalyzer`/`OutlierDetector`/`SchemaDetector` it reads.  The
returned floats are rounded to 2 decimals for display in the source;
the model keeps the exact values (the rating is computed on the
unrounded score in the source as well). -/

/-- Embedding of `MissingAnalyzer._count_complete_rows`
(src/datatui/core/missing.py lines 128-138): the row mask starts all
True and is AND-ed with the is-not-null mask of every column; the
count is the number of True entries.  An empty column list returns the
row count. -/
def completeMask (cols : List Column) (n : ℕ) : List Bool :=
  cols.foldl
    (fun mask c =>
      List.zipWith and mask
        ((List.range n).map (fun i => (c.values.getD i none).isSome)))
    (List.replicate n true)

/-- The complete-row count of `_count_complete_rows`. -/
def countCompleteRows (df : DataFrame) : ℕ :=
  if df.cols.length = 0 then df.nRows
  else (completeMask df.cols df.nRows).countP id

/-- The complete_rows_percentage of `MissingAnalyzer.analyze_missing`
(src/datatui/core/missing.py line 44). -/
def completeRowsPercentage (df : DataFrame) : ℚ :=
  if 0 < df.nRows then (countCompleteRows df : ℚ) / df.nRows * 100 else 0

/-- The overall_missing_percentage of `analyze_missing`
(src/datatui/core/missing.py lines 40-41). -/
def overallMissingPercentage (df : DataFrame) : ℚ :=
  let totalMissing := (df.cols.map (fun c => c.values.countP (·.isNone))).sum
  let totalCells := df.nRows * df.cols.length
  if 0 < totalCells then (totalMissing : ℚ) / totalCells * 100 else 0

/-- The OutlierInfo of a column under the default thresholds, as
`get_outlier_summary` computes it. -/
def outlierInfoOf (c : Column) : OutlierInfo :=
  detectColumnOutliers c.name 3 (7/2) c.values

/-- The average combined-outlier percentage of
`get_data_quality_score` (src/src/core/analyzer.py lines 265-274):
the sum of the per-numeric-column outlier percentages over the number
of numeric columns, 0 when there is none. -/
def avgOutlierPct (df : DataFrame) : ℚ :=
  let ncols := numericCols df
  if 0 < ncols.length then
    (ncols.map (fun c => (outlierInfoOf c).outlier_percentage)).sum
      / ncols.length
  else 0

/-- outlier_score = max(0, 100 - avg_outlier_pct)
(src/src/core/analyzer.py line 276). -/
def outlierScore (df : DataFrame) : ℚ := max 0 (100 - avgOutlierPct df)

/-- The unnamed/placeholder column count: columns whose name contains
the substring column_ (src/src/core/analyzer.py lines 281-286). -/
def unnamedCols (df : DataFrame) : ℕ :=
  df.cols.countP (fun c => strContains c.name "column_")

/-- The duplicate column-name count: len(names) - len(set(names))
(src/src/core/analyzer.py lines 288-291; when the lengths agree the
source leaves 0, which the difference also is). -/
def duplicateCols (df : DataFrame) : ℕ :=
  df.cols.length - ((df.cols.map (·.name)).dedup).length

/-- schema_score = max(0, 100 - (duplicates + unnamed) * 10)
(src/src/core/analyzer.py line 293). -/
def schemaScore (df : DataFrame) : ℚ :=
  max 0 (100 - (duplicateCols df + unnamedCols df : ℚ) * 10)

/-- The weighted combination of line 295:
completeness * 0.4 + outlier * 0.4 + schema * 0.2. -/
def overallFormula (c o s : ℚ) : ℚ :=
  c * (4/10) + o * (4/10) + s * (2/10)

/-- The rating decision chain of lines 297-300. -/
def qualityRating (s : ℚ) : String :=
  if 90 ≤ s then "excellent"
  else if 75 ≤ s then "good"
  else if 60 ≤ s then "fair"
  else "poor"

/-- Record mirroring the dict returned by `get_data_quality_score`
(src/src/core/analyzer.py lines 302-314), with the nested issues dict
flattened into the last four fields; the source presentation-rounds
the four score floats to 2 decimals, which the exact model omits. -/
structure QualityScore where
  overall_score : ℚ
  quality_rating : String
  completeness_score : ℚ
  outlier_score : ℚ
  schema_score : ℚ
  missing_percentage : ℚ
  average_outlier_percentage : ℚ
  duplicate_columns : ℕ
  unnamed_columns : ℕ
deriving DecidableEq, Repr

/-- Embedding of `DataAnalyzer.get_data_quality_score`
(src/src/core/analyzer.py lines 258-314). -/
def getDataQualityScore (df : DataFrame) : QualityScore :=
  let completeness := completeRowsPercentage df
  let oscore := outlierScore df
  let sscore := schemaScore df
  let overall := overallFormula completeness oscore sscore
  { overall_score := overall
    quality_rating := qualityRating overall
    completeness_score := completeness
    outlier_score := oscore
    schema_score := sscore
    missing_percentage := overallMissingPercentage df
    average_outlier_percentage := avgOutlierPct df
    duplicate_columns := duplicateCols df
    unnamed_columns := unnamedCols df }

/-! Spec-side definitions, written from the claim wording, to be
compared with the source-side ones. -/

/-- Spec side: the number of fully-non-null rows, as a direct row
predicate (a row is complete iff every column is non-null there). -/
def fullyNonNullRowCount (df : DataFrame) : ℕ :=
  (List.range df.nRows).countP
    (fun i => df.cols.all (fun c => (c.values.getD i none).isSome))

/-- Spec side: the percentage of fully-non-null rows. -/
def specCompleteness (df : DataFrame) : ℚ :=
  if 0 < df.nRows then (fullyNonNullRowCount df : ℚ) / df.nRows * 100
  else 0

/-- Spec side: 100 minus the average (arithmetic mean) combined-outlier
percentage across numeric columns, floored at 0. -/
def specOutlierScore (df : DataFrame) : ℚ :=
  max 0 (100 -
    meanQ ((numericCols df).map (fun c => (outlierInfoOf c).outlier_percentage)))

/-- Spec side: 100 minus 10 times the duplicate-plus-unnamed column
count, floored at 0. -/
def specSchemaScore (df : DataFrame) : ℚ :=
  max 0 (100 - 10 * (duplicateCols df + unnamedCols df : ℚ))

/-- Helper: zipWith of a binary operation over two maps of the same
base list fuses to one map. -/
lemma zipWith_map_same {α β : Type} (f : β → β → β) (g h : α → β)
    (l : List α) :
    List.zipWith f (l.map g) (l.map h) = l.map (fun x => f (g x) (h x)) := by
  induction l with
  | nil => rfl
  | cons a l ih => simp [ih]

/-- Helper: the folded column mask is pointwise the conjunction of the
per-column non-null tests. -/
lemma completeMask_go (cols : List Column) (n : ℕ) (p : ℕ → Bool) :
    cols.foldl
      (fun mask c =>
        List.zipWith and mask
          ((List.range n).map (fun i => (c.values.getD i none).isSome)))
      ((List.range n).map p)
    = (List.range n).map
        (fun i => p i && cols.all (fun c => (c.values.getD i none).isSome)) := by
  induction cols generalizing p with
  | nil => simp
  | cons c cs ih =>
    rw [List.foldl_cons, zipWith_map_same, ih]
    apply List.map_congr_left
    intro i _
    simp [Bool.and_assoc]

/-- Helper: the mask-fold count of `_count_complete_rows` is the
direct fully-non-null row count. -/
lemma countCompleteRows_eq (df : DataFrame) :
    countCompleteRows df = fullyNonNullRowCount df := by
  unfold countCompleteRows fullyNonNullRowCount
  split
  · rename_i h
    have hc : df.cols = [] := List.length_eq_zero.mp h
    simp [hc, List.countP_eq_length]
  · unfold completeMask
    rw [show (List.replicate df.nRows true)
          = (List.range df.nRows).map (fun _ => true) by
        rw [List.map_const', List.length_range]]
    rw [completeMask_go, List.countP_map]
    rfl

/-- Helper: the mask-fold completeness percentage equals the spec
percentage of fully-non-null rows. -/
lemma completeRowsPercentage_eq (df : DataFrame) :
    completeRowsPercentage df = specCompleteness df := by
  unfold completeRowsPercentage specCompleteness
  rw [countCompleteRows_eq]

/-- Helper: the guarded sum-over-count average of the source is the
arithmetic mean (whose empty case is also 0). -/
lemma avgOutlierPct_eq_mean (df : DataFrame) :
    avgOutlierPct df
      = meanQ ((numericCols df).map
          (fun c => (outlierInfoOf c).outlier_percentage)) := by
  unfold avgOutlierPct meanQ
  dsimp only []
  split
  · rw [List.length_map]
  · rename_i h
    have h0 : (numericCols df).length = 0 := by omega
    rw [List.length_eq_zero.mp h0]
    norm_num

/-- Helper: the source outlier score is the spec outlier score. -/
lemma outlierScore_eq (df : DataFrame) :
    outlierScore df = specOutlierScore df := by
  unfold outlierScore specOutlierScore
  rw [avgOutlierPct_eq_mean]

/-- Helper: the source schema score is the spec schema score. -/
lemma schemaScore_eq (df : DataFrame) :
    schemaScore df = specSchemaScore df := by
  unfold schemaScore specSchemaScore
  ring_nf

/-- C1, confirmed: for every dataset the overall quality score is
0.4 · completeness + 0.4 · outlier + 0.2 · schema where completeness
is the percentage of fully-non-null rows, the outlier score is 100
minus the mean combined-outlier percentage across numeric columns
floored at 0, and the schema score is 100 minus 10 times duplicate
plus placeholder column counts floored at 0; the rating is excellent
iff the score is at least 90, good iff it lies in [75, 90), fair iff
in [60, 75), poor iff below 60. -/
theorem C1_quality_score (df : DataFrame) :
    (getDataQualityScore df).overall_score
      = overallFormula (specCompleteness df) (specOutlierScore df)
          (specSchemaScore df) ∧
    ((getDataQualityScore df).quality_rating = "excellent" ↔
        90 ≤ (getDataQualityScore df).overall_score) ∧
    ((getDataQualityScore df).quality_rating = "good" ↔
        75 ≤ (getDataQualityScore df).overall_score ∧
        (getDataQualityScore df).overall_score < 90) ∧
    ((getDataQualityScore df).quality_rating = "fair" ↔
        60 ≤ (getDataQualityScore df).overall_score ∧
        (getDataQualityScore df).overall_score < 75) ∧
    ((getDataQualityScore df).quality_rating = "poor" ↔
        (getDataQualityScore df).overall_score < 60) := by
  have hov : (getDataQualityScore df).overall_score
      = overallFormula (completeRowsPercentage df) (outlierScore df)
          (schemaScore df) := rfl
  have hrat : (getDataQualityScore df).quality_rating
      = qualityRating ((getDataQualityScore df).overall_score) := rfl
  refine ⟨?_, ?_, ?_, ?_, ?_⟩
  · rw [hov, completeRowsPercentage_eq, outlierScore_eq, schemaScore_eq]
  all_goals
    rw [hrat]
    unfold qualityRating
    set ov := (getDataQualityScore df).overall_score with hdef
    by_cases h90 : (90 : ℚ) ≤ ov <;>
      by_cases h75 : (75 : ℚ) ≤ ov <;>
      by_cases h60 : (60 : ℚ) ≤ ov <;>
      simp [h90, h75, h60] <;>
      first
        | (intro h; linarith)
        | (constructor <;> intro h <;> [skip; linarith] <;> linarith)
        | linarith

/-- Helper: every combined outlier percentage is nonnegative. -/
lemma outlierPercentage_nonneg (name : String) (zt mt : ℚ)
    (values : List Cell) :
    0 ≤ (detectColumnOutliers name zt mt values).outlier_percentage := by
  unfold detectColumnOutliers
  dsimp only []
  split
  · norm_num
  · dsimp only []
    have h1 : (0 : ℚ) ≤ ((combinedOutlierIndices
        (detectIqrOutliers (dropNulls values)).1
        (detectZscoreOutliers zt (dropNulls values))
        (detectMadOutliers mt (dropNulls values))).length : ℚ) :=
      Nat.cast_nonneg _
    have h2 : (0 : ℚ) ≤ ((dropNulls values).length : ℚ) := Nat.cast_nonneg _
    positivity

/-- Helper: the average outlier percentage is nonnegative. -/
lemma avgOutlierPct_nonneg (df : DataFrame) : 0 ≤ avgOutlierPct df := by
  unfold avgOutlierPct
  dsimp only []
  split
  · apply div_nonneg
    · apply List.sum_nonneg
      intro x hx
      obtain ⟨c, _, hc⟩ := List.mem_map.mp hx
      rw [← hc]
      exact outlierPercentage_nonneg c.name 3 (7/2) c.values
    · exact Nat.cast_nonneg _
  · exact le_refl 0

/-- Helper: the complete-row count never exceeds the row count. -/
lemma countCompleteRows_le (df : DataFrame) :
    countCompleteRows df ≤ df.nRows := by
  rw [countCompleteRows_eq]
  unfold fullyNonNullRowCount
  calc (List.range df.nRows).countP _ ≤ (List.range df.nRows).length :=
        List.countP_le_length _
    _ = df.nRows := List.length_range _

/-- Helper: the completeness percentage lies in [0, 100]. -/
lemma completeRowsPercentage_bounds (df : DataFrame) :
    0 ≤ completeRowsPercentage df ∧ completeRowsPercentage df ≤ 100 := by
  unfold completeRowsPercentage
  split
  · rename_i h
    have hn : (0 : ℚ) < (df.nRows : ℚ) := by exact_mod_cast h
    constructor
    · positivity
    · have hle : ((countCompleteRows df : ℚ)) ≤ (df.nRows : ℚ) := by
        exact_mod_cast countCompleteRows_le df
      rw [div_mul_eq_mul_div, div_le_iff hn]
      nlinarith
  · norm_num

/-- Helper: the outlier score lies in [0, 100]. -/
lemma outlierScore_bounds (df : DataFrame) :
    0 ≤ outlierScore df ∧ outlierScore df ≤ 100 := by
  unfold outlierScore
  constructor
  · exact le_max_left 0 _
  · apply max_le (by norm_num)
    have := avgOutlierPct_nonneg df
    linarith

/-- Helper: the schema score lies in [0, 100]. -/
lemma schemaScore_bounds (df : DataFrame) :
    0 ≤ schemaScore df ∧ schemaScore df ≤ 100 := by
  unfold schemaScore
  constructor
  · exact le_max_left 0 _
  · apply max_le (by norm_num)
    have h : (0 : ℚ) ≤ ((duplicateCols df + unnamedCols df : ℕ) : ℚ) :=
      Nat.cast_nonneg _
    push_cast at h ⊢
    nlinarith

/-- C2, confirmed: for every dataset the overall score lies in
[0, 100], and the weighted combination is strictly monotone in the
completeness score with the outlier and schema scores held fixed. -/
theorem C2_score_bounds_monotone (df : DataFrame) :
    (0 ≤ (getDataQualityScore df).overall_score ∧
     (getDataQualityScore df).overall_score ≤ 100) ∧
    (∀ c₁ c₂ o s : ℚ, c₁ < c₂ →
      overallFormula c₁ o s < overallFormula c₂ o s) := by
  constructor
  · have hov : (getDataQualityScore df).overall_score
        = overallFormula (completeRowsPercentage df) (outlierScore df)
            (schemaScore df) := rfl
    obtain ⟨hc0, hc1⟩ := completeRowsPercentage_bounds df
    obtain ⟨ho0, ho1⟩ := outlierScore_bounds df
    obtain ⟨hs0, hs1⟩ := schemaScore_bounds df
    rw [hov]
    unfold overallFormula
    constructor <;> nlinarith
  · intro c₁ c₂ o s h
    unfold overallFormula
    nlinarith

/-! ## C10: the correlation matrix view

Embedding of `CorrelationAnalyzer.get_correlation_matrix`
(src/datatui/core/correlations.py lines 268-294).  The per-pair method
(`_pearson_correlation` or `_spearman_correlation`) returns a present
float or None after its guards (fewer than 2 joint rows, zero
variance/single distinct value, NaN, caught exception); the matrix
builder only consumes that Option, so the method enters the model as
an arbitrary function `corr : Column → Column → Option ℚ` and the
claim is proved for every such function — covering every skip
reason at once. -/

/-- The numpy n-by-n identity the builder starts from. -/
def eyeMatrix (n : ℕ) : ℕ → ℕ → ℚ :=
  fun i j => if i = j then 1 else 0

/-- One assignment `matrix[r, c] = v`. -/
def matrixSet (m : ℕ → ℕ → ℚ) (r c : ℕ) (v : ℚ) : ℕ → ℕ → ℚ :=
  fun i j => if i = r ∧ j = c then v else m i j

/-- A placeholder column (never read on well-formed indices). -/
def defaultColumn : Column := { name := "", numeric := false, values := [] }

/-- The pairs the nested `for i ... for j ... if i < j` loops visit, in
loop order: every (indexed) column pair with the first index smaller. -/
def pairList (cols : List Column) : List ((ℕ × Column) × (ℕ × Column)) :=
  cols.enum.flatMap (fun ic =>
    (cols.enum.filter (fun jc => ic.1 < jc.1)).map (fun jc => (ic, jc)))

/-- The loop body: on a present correlation write it at (i, j) and
(j, i); on None leave the matrix unchanged. -/
def corrStep (corr : Column → Column → Option ℚ)
    (m : ℕ → ℕ → ℚ) (p : (ℕ × Column) × (ℕ × Column)) : ℕ → ℕ → ℚ :=
  match corr p.1.2 p.2.2 with
  | some v => matrixSet (matrixSet m p.1.1 p.2.1 v) p.2.1 p.1.1 v
  | none => m

/-- The filled matrix: the fold of the loop body over the visited
pairs, starting from the identity. -/
def buildCorrMatrix (corr : Column → Column → Option ℚ)
    (cols : List Column) : ℕ → ℕ → ℚ :=
  (pairList cols).foldl (corrStep corr) (eyeMatrix cols.length)

/-- The dict returned by `get_correlation_matrix`: the numeric column
names and the matrix (as an entry function). -/
structure CorrMatrixResult where
  columns : List String
  entry : ℕ → ℕ → ℚ

/-- Embedding of `CorrelationAnalyzer.get_correlation_matrix`
(src/datatui/core/correlations.py lines 268-294), for the method the
caller selected (entering as `corr`). -/
def getCorrelationMatrix (corr : Column → Column → Option ℚ)
    (df : DataFrame) : CorrMatrixResult :=
  let ncols := numericCols df
  if ncols.length = 0 then { columns := [], entry := eyeMatrix 0 }
  else
    { columns := ncols.map (·.name)
      entry := buildCorrMatrix corr ncols }

/-- Helper: a loop step leaves every cell outside its pair (in either
orientation) unchanged. -/
lemma corrStep_entry_ne (corr : Column → Column → Option ℚ)
    (m : ℕ → ℕ → ℚ) (p : (ℕ × Column) × (ℕ × Column)) (i j : ℕ)
    (h1 : ¬(p.1.1 = i ∧ p.2.1 = j)) (h2 : ¬(p.1.1 = j ∧ p.2.1 = i)) :
    corrStep corr m p i j = m i j := by
  unfold corrStep
  cases corr p.1.2 p.2.2 with
  | none => rfl
  | some v =>
    dsimp only [matrixSet]
    rw [if_neg, if_neg]
    · intro hc
      exact h1 ⟨hc.1.symm, hc.2.symm⟩
    · intro hc
      exact h2 ⟨hc.2.symm, hc.1.symm⟩

/-- Helper: the fold never touches the diagonal. -/
lemma fold_diag (corr : Column → Column → Option ℚ)
    (P : List ((ℕ × Column) × (ℕ × Column))) (m : ℕ → ℕ → ℚ) (i : ℕ)
    (hs : ∀ p ∈ P, p.1.1 < p.2.1) :
    P.foldl (corrStep corr) m i i = m i i := by
  induction P generalizing m with
  | nil => rfl
  | cons q rest ih =>
    have hsq := hs q (List.mem_cons_self q rest)
    rw [List.foldl_cons, ih _ (fun p hp => hs p (List.mem_cons_of_mem q hp))]
    apply corrStep_entry_ne
    · rintro ⟨ha, hb⟩
      omega
    · rintro ⟨ha, hb⟩
      omega

/-- Helper: when every visited pair at indices (i, j) has a None
correlation, the cells (i, j) and (j, i) are left as given. -/
lemma fold_untouched (corr : Column → Column → Option ℚ)
    (P : List ((ℕ × Column) × (ℕ × Column))) (m : ℕ → ℕ → ℚ) (i j : ℕ)
    (hs : ∀ p ∈ P, p.1.1 < p.2.1) (hij : i < j)
    (hnone : ∀ p ∈ P, p.1.1 = i → p.2.1 = j → corr p.1.2 p.2.2 = none) :
    P.foldl (corrStep corr) m i j = m i j ∧
    P.foldl (corrStep corr) m j i = m j i := by
  induction P generalizing m with
  | nil => exact ⟨rfl, rfl⟩
  | cons q rest ih =>
    have hsq := hs q (List.mem_cons_self q rest)
    have hstep : corrStep corr m q i j = m i j ∧
        corrStep corr m q j i = m j i := by
      by_cases hq : q.1.1 = i ∧ q.2.1 = j
      · have hn := hnone q (List.mem_cons_self q rest) hq.1 hq.2
        unfold corrStep
        rw [hn]
        exact ⟨rfl, rfl⟩
      · constructor
        · apply corrStep_entry_ne _ _ _ _ _ hq
          rintro ⟨ha, hb⟩
          omega
        · apply corrStep_entry_ne
          · rintro ⟨ha, hb⟩
            omega
          · exact hq
    rw [List.foldl_cons]
    obtain ⟨ih1, ih2⟩ := ih (corrStep corr m q)
      (fun p hp => hs p (List.mem_cons_of_mem q hp))
      (fun p hp => hnone p (List.mem_cons_of_mem q hp))
    exact ⟨ih1.trans hstep.1, ih2.trans hstep.2⟩

/-- Helper: once both cells of a pair hold v and every visited pair at
those indices re-computes v, the fold keeps v there. -/
lemma fold_stable (corr : Column → Column → Option ℚ)
    (P : List ((ℕ × Column) × (ℕ × Column))) (m : ℕ → ℕ → ℚ) (i j : ℕ)
    (v : ℚ) (hs : ∀ p ∈ P, p.1.1 < p.2.1) (hij : i < j)
    (hsame : ∀ p ∈ P, p.1.1 = i → p.2.1 = j → corr p.1.2 p.2.2 = some v)
    (hm : m i j = v ∧ m j i = v) :
    P.foldl (corrStep corr) m i j = v ∧
    P.foldl (corrStep corr) m j i = v := by
  induction P generalizing m with
  | nil => exact hm
  | cons q rest ih =>
    have hsq := hs q (List.mem_cons_self q rest)
    have hne : i ≠ j := Nat.ne_of_lt hij
    have hstep : corrStep corr m q i j = v ∧ corrStep corr m q j i = v := by
      by_cases hq : q.1.1 = i ∧ q.2.1 = j
      · have hv := hsame q (List.mem_cons_self q rest) hq.1 hq.2
        unfold corrStep
        rw [hv]
        dsimp only [matrixSet]
        rw [hq.1, hq.2]
        constructor
        · rw [if_neg (fun hc => hne hc.1), if_pos ⟨rfl, rfl⟩]
        · rw [if_pos ⟨rfl, rfl⟩]
      · constructor
        · rw [corrStep_entry_ne _ _ _ _ _ hq
            (by rintro ⟨ha, hb⟩; omega)]
          exact hm.1
        · rw [corrStep_entry_ne _ _ _ _ _
            (by rintro ⟨ha, hb⟩; omega) hq]
          exact hm.2
    rw [List.foldl_cons]
    exact ih (corrStep corr m q)
      (fun p hp => hs p (List.mem_cons_of_mem q hp))
      (fun p hp => hsame p (List.mem_cons_of_mem q hp)) hstep

/-- Helper: when some visited pair at indices (i, j) exists and every
one of them computes v, the fold writes v at (i, j) and (j, i). -/
lemma fold_write (corr : Column → Column → Option ℚ)
    (P : List ((ℕ × Column) × (ℕ × Column))) (m : ℕ → ℕ → ℚ) (i j : ℕ)
    (v : ℚ) (hs : ∀ p ∈ P, p.1.1 < p.2.1) (hij : i < j)
    (hsame : ∀ p ∈ P, p.1.1 = i → p.2.1 = j → corr p.1.2 p.2.2 = some v)
    (hmem : ∃ p ∈ P, p.1.1 = i ∧ p.2.1 = j) :
    P.foldl (corrStep corr) m i j = v ∧
    P.foldl (corrStep corr) m j i = v := by
  induction P generalizing m with
  | nil => exact absurd hmem (by simp)
  | cons q rest ih =>
    have hsq := hs q (List.mem_cons_self q rest)
    rw [List.foldl_cons]
    by_cases hq : q.1.1 = i ∧ q.2.1 = j
    · have hv := hsame q (List.mem_cons_self q rest) hq.1 hq.2
      apply fold_stable corr rest _ i j v
        (fun p hp => hs p (List.mem_cons_of_mem q hp)) hij
        (fun p hp => hsame p (List.mem_cons_of_mem q hp))
      have hne : i ≠ j := Nat.ne_of_lt hij
      unfold corrStep
      rw [hv]
      dsimp only [matrixSet]
      rw [hq.1, hq.2]
      constructor
      · rw [if_neg (fun hc => hne hc.1), if_pos ⟨rfl, rfl⟩]
      · rw [if_pos ⟨rfl, rfl⟩]
    · obtain ⟨p, hp, hpi⟩ := hmem
      have hpq : p ≠ q := by
        intro h
        exact hq (h ▸ hpi)
      have hp' : p ∈ rest := by
        rcases List.mem_cons.mp hp with h | h
        · exact absurd h hpq
        · exact h
      exact ih (corrStep corr m q)
        (fun p hp => hs p (List.mem_cons_of_mem q hp))
        (fun p hp => hsame p (List.mem_cons_of_mem q hp)) ⟨p, hp', hpi⟩

/-- Helper: every visited pair has its first index below its second. -/
lemma pairList_sorted (cols : List Column) :
    ∀ p ∈ pairList cols, p.1.1 < p.2.1 := by
  intro p hp
  obtain ⟨ic, _, hin⟩ := List.mem_flatMap.mp hp
  obtain ⟨jc, hjc, hpe⟩ := List.mem_map.mp hin
  obtain ⟨_, hlt⟩ := List.mem_filter.mp hjc
  rw [← hpe]
  exact of_decide_eq_true hlt

/-- Helper: a visited pair at indices (i, j) carries exactly the i-th
and j-th columns (enum determines the element from the index). -/
lemma pairList_cols (cols : List Column) (p : (ℕ × Column) × (ℕ × Column))
    (hp : p ∈ pairList cols) (i j : ℕ) (hi : p.1.1 = i) (hj : p.2.1 = j)
    (hin : i < cols.length) (hjn : j < cols.length) :
    p.1.2 = cols.getD i defaultColumn ∧
    p.2.2 = cols.getD j defaultColumn := by
  obtain ⟨ic, hic, hinn⟩ := List.mem_flatMap.mp hp
  obtain ⟨jc, hjc, hpe⟩ := List.mem_map.mp hinn
  obtain ⟨hjm, _⟩ := List.mem_filter.mp hjc
  subst hpe
  dsimp only [] at hi hj ⊢
  subst hi
  subst hj
  have h1 : cols[ic.1]? = some ic.2 := by
    have := List.mk_mem_enum_iff_getElem?.mp (show (ic.1, ic.2) ∈ cols.enum from hic)
    simpa using this
  have h2 : cols[jc.1]? = some jc.2 := by
    have := List.mk_mem_enum_iff_getElem?.mp (show (jc.1, jc.2) ∈ cols.enum from hjm)
    simpa using this
  rw [List.getElem?_eq_getElem hin] at h1
  rw [List.getElem?_eq_getElem hjn] at h2
  constructor
  · rw [List.getD_eq_getElem?_getD, List.getElem?_eq_getElem hin]
    exact (Option.some_injective _ h1.symm)
  · rw [List.getD_eq_getElem?_getD, List.getElem?_eq_getElem hjn]
    exact (Option.some_injective _ h2.symm)

/-- Helper: the pair of the i-th and j-th columns is visited for
i < j < n. -/
lemma pairList_mem (cols : List Column) (i j : ℕ) (hij : i < j)
    (hj : j < cols.length) :
    ((i, cols.getD i defaultColumn), (j, cols.getD j defaultColumn))
      ∈ pairList cols := by
  have hi : i < cols.length := lt_trans hij hj
  have hmi : (i, cols.getD i defaultColumn) ∈ cols.enum := by
    apply List.mk_mem_enum_iff_getElem?.mpr
    rw [List.getElem?_eq_getElem hi, List.getD_eq_getElem?_getD,
      List.getElem?_eq_getElem hi]
    rfl
  have hmj : (j, cols.getD j defaultColumn) ∈ cols.enum := by
    apply List.mk_mem_enum_iff_getElem?.mpr
    rw [List.getElem?_eq_getElem hj, List.getD_eq_getElem?_getD,
      List.getElem?_eq_getElem hj]
    rfl
  apply List.mem_flatMap.mpr
  refine ⟨(i, cols.getD i defaultColumn), hmi, ?_⟩
  apply List.mem_map.mpr
  refine ⟨(j, cols.getD j defaultColumn), ?_, rfl⟩
  apply List.mem_filter.mpr
  exact ⟨hmj, decide_eq_true hij⟩

/-- C10, confirmed: in the matrix returned by get_correlation_matrix,
every diagonal entry is 1.0; every pair of distinct numeric columns
whose selected method yields no result (None for any reason - fewer
than 2 jointly non-null rows, zero variance or a single distinct
value, a non-finite result, or a caught computation failure) keeps the
identity off-diagonal default 0.0 in both orientations, exactly the
value a true zero correlation would produce; and a present result v is
written symmetrically. -/
theorem C10_matrix_defaults (corr : Column → Column → Option ℚ)
    (df : DataFrame) :
    (∀ i, i < (numericCols df).length →
      (getCorrelationMatrix corr df).entry i i = 1) ∧
    (∀ i j, i < j → j < (numericCols df).length →
      corr ((numericCols df).getD i defaultColumn)
          ((numericCols df).getD j defaultColumn) = none →
      (getCorrelationMatrix corr df).entry i j = 0 ∧
      (getCorrelationMatrix corr df).entry j i = 0) ∧
    (∀ i j v, i < j → j < (numericCols df).length →
      corr ((numericCols df).getD i defaultColumn)
          ((numericCols df).getD j defaultColumn) = some v →
      (getCorrelationMatrix corr df).entry i j = v ∧
      (getCorrelationMatrix corr df).entry j i = v) := by
  by_cases hn : (numericCols df).length = 0
  · refine ⟨fun i hi => absurd hi (by omega), fun i j hij hj _ => ?_,
      fun i j v hij hj _ => ?_⟩ <;> exact absurd hj (by omega)
  · have hM : (getCorrelationMatrix corr df).entry
        = buildCorrMatrix corr (numericCols df) := by
      unfold getCorrelationMatrix
      rw [if_neg hn]
    refine ⟨?_, ?_, ?_⟩
    · intro i _
      rw [hM]
      unfold buildCorrMatrix
      rw [fold_diag corr _ _ i (pairList_sorted _)]
      unfold eyeMatrix
      rw [if_pos rfl]
    · intro i j hij hj hnone
      rw [hM]
      unfold buildCorrMatrix
      have hres := fold_untouched corr (pairList (numericCols df))
        (eyeMatrix (numericCols df).length) i j (pairList_sorted _) hij
        (fun p hp hpi hpj => by
          obtain ⟨h1, h2⟩ := pairList_cols _ p hp i j hpi hpj
            (lt_trans hij hj) hj
          rw [h1, h2]
          exact hnone)
      rw [hres.1, hres.2]
      unfold eyeMatrix
      rw [if_neg (Nat.ne_of_lt hij), if_neg (Nat.ne_of_gt hij)]
      exact ⟨rfl, rfl⟩
    · intro i j v hij hj hsome
      rw [hM]
      unfold buildCorrMatrix
      exact fold_write corr (pairList (numericCols df))
        (eyeMatrix (numericCols df).length) i j v (pairList_sorted _) hij
        (fun p hp hpi hpj => by
          obtain ⟨h1, h2⟩ := pairList_cols _ p hp i j hpi hpj
            (lt_trans hij hj) hj
          rw [h1, h2]
          exact hsome)
        ⟨((i, (numericCols df).getD i defaultColumn),
          (j, (numericCols df).getD j defaultColumn)),
         pairList_mem _ i j hij hj, rfl, rfl⟩

/-! ## C9: the range of Cramér's V

Embedding of `CorrelationAnalyzer._cramers_v` and
`_calculate_chi_square` (src/datatui/core/correlations.py lines
185-233).  The contingency table of the jointly non-null value pairs
has one row per distinct first value and one column per distinct
second value (the group_by/pivot with fill_null(0)); the chi-square
statistic sums (observed - expected)²/expected with expected floored
at 1e-10 when it is 0.  The source returns V = sqrt(chi²/(n·min_dim));
`cramersVSq` is its square — x ↦ sqrt x maps [0,1] onto [0,1], so
V ∈ [0,1] holds iff V² ∈ [0,1], and only the square is needed to stay
inside ℚ. -/

section CramersV

variable {α β : Type} [DecidableEq α] [DecidableEq β]

/-- The distinct first values of the pairs: the pivot row index. -/
def ctRows (pairs : List (α × β)) : List α := (pairs.map Prod.fst).dedup

/-- The distinct second values of the pairs: the pivot column index. -/
def ctCols (pairs : List (α × β)) : List β := (pairs.map Prod.snd).dedup

/-- One observed cell: how often the value pair occurs. -/
def obsCount (pairs : List (α × β)) (a : α) (b : β) : ℕ :=
  pairs.count (a, b)

/-- observed.sum(axis=1): one row sum of the contingency table. -/
def ctRowSum (pairs : List (α × β)) (a : α) : ℕ :=
  ((ctCols pairs).map (obsCount pairs a)).sum

/-- observed.sum(axis=0): one column sum of the contingency table. -/
def ctColSum (pairs : List (α × β)) (b : β) : ℕ :=
  ((ctRows pairs).map (fun a => obsCount pairs a b)).sum

/-- observed.sum(): the table total. -/
def ctTotal (pairs : List (α × β)) : ℕ :=
  ((ctRows pairs).map (ctRowSum pairs)).sum

/-- One expected cell under independence: row sum · column sum / total. -/
def expectedQ (pairs : List (α × β)) (a : α) (b : β) : ℚ :=
  (ctRowSum pairs a : ℚ) * (ctColSum pairs b) / (ctTotal pairs)

/-- One chi-square summand, with the `np.where(expected == 0, 1e-10,
expected)` floor. -/
def cellChi (pairs : List (α × β)) (a : α) (b : β) : ℚ :=
  let e := expectedQ pairs a b
  let ef := if e = 0 then 1/10^10 else e
  ((obsCount pairs a b : ℚ) - ef) ^ 2 / ef

/-- Embedding of `_calculate_chi_square` (lines 219-233): 0 on an
empty table, otherwise the sum of the floored summands. -/
def chiSquare (pairs : List (α × β)) : ℚ :=
  if ctTotal pairs = 0 then 0
  else ((ctRows pairs).map
    (fun a => ((ctCols pairs).map (fun b => cellChi pairs a b)).sum)).sum

/-- Embedding of `_cramers_v` (lines 185-217), squared: None below 2
joint rows, on an empty table, on a collapsed dimension or a zero
total; otherwise chi²/(n·min_dim), the square of the returned
sqrt(chi²/(n·min_dim)). -/
def cramersVSq (pairs : List (α × β)) : Option ℚ :=
  if pairs.length < 2 then none
  else if (ctRows pairs).length = 0 ∨ (ctCols pairs).length = 0 then none
  else
    let minDim := min (ctRows pairs).length (ctCols pairs).length - 1
    if minDim = 0 ∨ ctTotal pairs = 0 then none
    else some (chiSquare pairs / (ctTotal pairs * minDim))

/-- Helper: sums of pointwise sums split. -/
lemma sum_map_add {γ M : Type} [AddCommMonoid M] (l : List γ)
    (f g : γ → M) :
    (l.map (fun x => f x + g x)).sum = (l.map f).sum + (l.map g).sum := by
  induction l with
  | nil => simp
  | cons a l ih => simp [ih]; abel

/-- Helper: sums of pointwise differences split. -/
lemma sum_map_sub {γ : Type} (l : List γ) (f g : γ → ℚ) :
    (l.map (fun x => f x - g x)).sum = (l.map f).sum - (l.map g).sum := by
  induction l with
  | nil => simp
  | cons a l ih => simp [ih]; ring

/-- Helper: constants pull out of sums. -/
lemma sum_map_mul_left {γ : Type} (l : List γ) (c : ℚ) (f : γ → ℚ) :
    (l.map (fun x => c * f x)).sum = c * (l.map f).sum := by
  induction l with
  | nil => simp
  | cons a l ih => simp [ih]; ring

/-- Helper: double list sums commute. -/
lemma sum_map_comm {γ δ M : Type} [AddCommMonoid M] (l1 : List γ)
    (l2 : List δ) (f : γ → δ → M) :
    (l1.map (fun a => (l2.map (f a)).sum)).sum
      = (l2.map (fun b => (l1.map (fun a => f a b)).sum)).sum := by
  induction l1 with
  | nil => simp
  | cons a l1 ih =>
    rw [List.map_cons, List.sum_cons, ih, ← sum_map_add]
    apply congrArg
    apply List.map_congr_left
    intro b _
    rw [List.map_cons, List.sum_cons]

/-- Helper: the sum of a constant over a list. -/
lemma sum_map_const_q {γ : Type} (l : List γ) (c : ℚ) :
    (l.map (fun _ => c)).sum = l.length * c := by
  induction l with
  | nil => simp
  | cons a l ih => simp [ih]; ring

/-- Helper: the first value of every pair indexes a pivot row. -/
lemma fst_mem_ctRows (pairs : List (α × β)) (p : α × β) (hp : p ∈ pairs) :
    p.1 ∈ ctRows pairs :=
  List.mem_dedup.mpr (List.mem_map.mpr ⟨p, hp, rfl⟩)

/-- Helper: the second value of every pair indexes a pivot column. -/
lemma snd_mem_ctCols (pairs : List (α × β)) (p : α × β) (hp : p ∈ pairs) :
    p.2 ∈ ctCols pairs :=
  List.mem_dedup.mpr (List.mem_map.mpr ⟨p, hp, rfl⟩)

/-- Helper: every pivot row has a positive row sum (the row exists
because some pair produced it). -/
lemma ctRowSum_pos (pairs : List (α × β)) (a : α)
    (ha : a ∈ ctRows pairs) : 0 < ctRowSum pairs a := by
  obtain ⟨p, hp, hpa⟩ := List.mem_map.mp (List.mem_dedup.mp ha)
  have hb : p.2 ∈ ctCols pairs := snd_mem_ctCols pairs p hp
  have hobs : 0 < obsCount pairs a p.2 := by
    apply List.count_pos_iff_mem.mpr
    rw [show (a, p.2) = p from by rw [← hpa]]
    exact hp
  have hmem : obsCount pairs a p.2
      ∈ (ctCols pairs).map (obsCount pairs a) :=
    List.mem_map.mpr ⟨p.2, hb, rfl⟩
  exact lt_of_lt_of_le hobs
    (List.single_le_sum (fun x _ => Nat.zero_le x) _ hmem)

/-- Helper: every pivot column has a positive column sum. -/
lemma ctColSum_pos (pairs : List (α × β)) (b : β)
    (hb : b ∈ ctCols pairs) : 0 < ctColSum pairs b := by
  obtain ⟨p, hp, hpb⟩ := List.mem_map.mp (List.mem_dedup.mp hb)
  have ha : p.1 ∈ ctRows pairs := fst_mem_ctRows pairs p hp
  have hobs : 0 < obsCount pairs p.1 b := by
    apply List.count_pos_iff_mem.mpr
    rw [show (p.1, b) = p from by rw [← hpb]]
    exact hp
  have hmem : obsCount pairs p.1 b
      ∈ (ctRows pairs).map (fun a => obsCount pairs a b) :=
    List.mem_map.mpr ⟨p.1, ha, rfl⟩
  exact lt_of_lt_of_le hobs
    (List.single_le_sum (fun x _ => Nat.zero_le x) _ hmem)

/-- Helper: a cell count is at most its column sum. -/
lemma obs_le_ctColSum (pairs : List (α × β)) (a : α) (b : β)
    (ha : a ∈ ctRows pairs) : obsCount pairs a b ≤ ctColSum pairs b :=
  List.single_le_sum (fun x _ => Nat.zero_le x) _
    (List.mem_map.mpr ⟨a, ha, rfl⟩)

/-- Helper: a cell count is at most its row sum. -/
lemma obs_le_ctRowSum (pairs : List (α × β)) (a : α) (b : β)
    (hb : b ∈ ctCols pairs) : obsCount pairs a b ≤ ctRowSum pairs a :=
  List.single_le_sum (fun x _ => Nat.zero_le x) _
    (List.mem_map.mpr ⟨b, hb, rfl⟩)

/-- Helper: the column sums also add up to the table total. -/
lemma sum_ctColSum (pairs : List (α × β)) :
    ((ctCols pairs).map (ctColSum pairs)).sum = ctTotal pairs := by
  unfold ctColSum ctTotal ctRowSum
  exact (sum_map_comm (ctRows pairs) (ctCols pairs)
    (fun a b => obsCount pairs a b)).symm

/-- Helper: the cast row sums add up to the cast total. -/
lemma sum_cast_ctRowSum (pairs : List (α × β)) :
    ((ctRows pairs).map (fun a => (ctRowSum pairs a : ℚ))).sum
      = (ctTotal pairs : ℚ) := by
  unfold ctTotal
  rw [Nat.cast_list_sum, List.map_map]
  rfl

/-- Helper: the cast column sums add up to the cast total. -/
lemma sum_cast_ctColSum (pairs : List (α × β)) :
    ((ctCols pairs).map (fun b => (ctColSum pairs b : ℚ))).sum
      = (ctTotal pairs : ℚ) := by
  rw [← sum_ctColSum pairs, Nat.cast_list_sum, List.map_map]
  rfl

/-- Helper: expected cells are positive on a live table. -/
lemma expectedQ_pos (pairs : List (α × β)) (a : α) (b : β)
    (ha : a ∈ ctRows pairs) (hb : b ∈ ctCols pairs)
    (hn : 0 < ctTotal pairs) : 0 < expectedQ pairs a b := by
  unfold expectedQ
  have h1 : (0 : ℚ) < (ctRowSum pairs a : ℚ) := by
    exact_mod_cast ctRowSum_pos pairs a ha
  have h2 : (0 : ℚ) < (ctColSum pairs b : ℚ) := by
    exact_mod_cast ctColSum_pos pairs b hb
  have h3 : (0 : ℚ) < (ctTotal pairs : ℚ) := by exact_mod_cast hn
  positivity

/-- Helper: on a live table the 1e-10 floor never fires: the summand
is the plain (observed - expected)²/expected. -/
lemma cellChi_eq (pairs : List (α × β)) (a : α) (b : β)
    (ha : a ∈ ctRows pairs) (hb : b ∈ ctCols pairs)
    (hn : 0 < ctTotal pairs) :
    cellChi pairs a b
      = ((obsCount pairs a b : ℚ) - expectedQ pairs a b) ^ 2
          / expectedQ pairs a b := by
  unfold cellChi
  dsimp only []
  rw [if_neg (ne_of_gt (expectedQ_pos pairs a b ha hb hn))]

/-- Helper: every chi-square summand is nonnegative (the floored
denominator is always positive). -/
lemma cellChi_nonneg (pairs : List (α × β)) (a : α) (b : β) :
    0 ≤ cellChi pairs a b := by
  unfold cellChi
  dsimp only []
  have he : 0 ≤ expectedQ pairs a b := by
    unfold expectedQ
    positivity
  split
  · positivity
  · rename_i hne
    have : 0 < expectedQ pairs a b := lt_of_le_of_ne he (Ne.symm hne)
    positivity

/-- Helper: the chi-square statistic is nonnegative. -/
lemma chiSquare_nonneg (pairs : List (α × β)) : 0 ≤ chiSquare pairs := by
  unfold chiSquare
  split
  · exact le_refl 0
  · apply List.sum_nonneg
    intro x hx
    obtain ⟨a, _, hax⟩ := List.mem_map.mp hx
    rw [← hax]
    apply List.sum_nonneg
    intro y hy
    obtain ⟨b, _, hby⟩ := List.mem_map.mp hy
    rw [← hby]
    exact cellChi_nonneg pairs a b

/-- Helper: one row of chi-square summands adds to at most
total - rowSum (the classical per-row bound behind chi² ≤ n(R-1)). -/
lemma cellChi_row_sum_le (pairs : List (α × β)) (a : α)
    (ha : a ∈ ctRows pairs) (hn : 0 < ctTotal pairs) :
    ((ctCols pairs).map (fun b => cellChi pairs a b)).sum
      ≤ (ctTotal pairs : ℚ) - (ctRowSum pairs a : ℚ) := by
  have hn0 : (0 : ℚ) < (ctTotal pairs : ℚ) := by exact_mod_cast hn
  have hr0 : (0 : ℚ) < (ctRowSum pairs a : ℚ) := by
    exact_mod_cast ctRowSum_pos pairs a ha
  have hexp : ∀ b ∈ ctCols pairs,
      cellChi pairs a b
        = ((obsCount pairs a b : ℚ) ^ 2 / expectedQ pairs a b
            + expectedQ pairs a b)
          - 2 * (obsCount pairs a b : ℚ) := by
    intro b hb
    have he := expectedQ_pos pairs a b ha hb hn
    rw [cellChi_eq pairs a b ha hb hn]
    field_simp
    ring
  rw [List.map_congr_left hexp, sum_map_sub, sum_map_add]
  have hsume : ((ctCols pairs).map (fun b => expectedQ pairs a b)).sum
      = (ctRowSum pairs a : ℚ) := by
    have hcongr : ∀ b ∈ ctCols pairs,
        expectedQ pairs a b
          = (ctRowSum pairs a : ℚ) / (ctTotal pairs : ℚ)
              * (ctColSum pairs b : ℚ) := by
      intro b _
      unfold expectedQ
      field_simp
    rw [List.map_congr_left hcongr, sum_map_mul_left, sum_cast_ctColSum]
    field_simp
  have hsumo : ((ctCols pairs).map
      (fun b => (2 : ℚ) * (obsCount pairs a b : ℚ))).sum
      = 2 * (ctRowSum pairs a : ℚ) := by
    rw [sum_map_mul_left]
    have hcast : ((ctCols pairs).map
        (fun b => (obsCount pairs a b : ℚ))).sum
        = (ctRowSum pairs a : ℚ) := by
      unfold ctRowSum
      rw [Nat.cast_list_sum, List.map_map]
      rfl
    rw [hcast]
  have hbound : ((ctCols pairs).map
      (fun b => (obsCount pairs a b : ℚ) ^ 2 / expectedQ pairs a b)).sum
      ≤ (ctTotal pairs : ℚ) := by
    have hpt : ∀ b ∈ ctCols pairs,
        (obsCount pairs a b : ℚ) ^ 2 / expectedQ pairs a b
          ≤ (ctTotal pairs : ℚ) / (ctRowSum pairs a : ℚ)
              * (obsCount pairs a b : ℚ) := by
      intro b hb
      have hc0 : (0 : ℚ) < (ctColSum pairs b : ℚ) := by
        exact_mod_cast ctColSum_pos pairs b hb
      have hoc : (obsCount pairs a b : ℚ) ≤ (ctColSum pairs b : ℚ) := by
        exact_mod_cast obs_le_ctColSum pairs a b ha
      have ho0 : (0 : ℚ) ≤ (obsCount pairs a b : ℚ) := Nat.cast_nonneg _
      have hepos := expectedQ_pos pairs a b ha hb hn
      rw [div_le_iff hepos]
      unfold expectedQ
      have hrhs : (ctTotal pairs : ℚ) / (ctRowSum pairs a : ℚ)
            * (obsCount pairs a b : ℚ)
            * ((ctRowSum pairs a : ℚ) * (ctColSum pairs b : ℚ)
                / (ctTotal pairs : ℚ))
          = (obsCount pairs a b : ℚ) * (ctColSum pairs b : ℚ) := by
        field_simp
        ring
      rw [hrhs]
      nlinarith
    calc ((ctCols pairs).map
        (fun b => (obsCount pairs a b : ℚ) ^ 2 / expectedQ pairs a b)).sum
        ≤ ((ctCols pairs).map
            (fun b => (ctTotal pairs : ℚ) / (ctRowSum pairs a : ℚ)
              * (obsCount pairs a b : ℚ))).sum := List.sum_le_sum hpt
      _ = (ctTotal pairs : ℚ) / (ctRowSum pairs a : ℚ)
            * (ctRowSum pairs a : ℚ) := by
          rw [sum_map_mul_left]
          congr 1
          unfold ctRowSum
          rw [Nat.cast_list_sum, List.map_map]
          rfl
      _ = (ctTotal pairs : ℚ) := by field_simp
  linarith

/-- Helper: one column of chi-square summands adds to at most
total - colSum (the symmetric per-column bound behind chi² ≤ n(C-1)). -/
lemma cellChi_col_sum_le (pairs : List (α × β)) (b : β)
    (hb : b ∈ ctCols pairs) (hn : 0 < ctTotal pairs) :
    ((ctRows pairs).map (fun a => cellChi pairs a b)).sum
      ≤ (ctTotal pairs : ℚ) - (ctColSum pairs b : ℚ) := by
  have hn0 : (0 : ℚ) < (ctTotal pairs : ℚ) := by exact_mod_cast hn
  have hc0 : (0 : ℚ) < (ctColSum pairs b : ℚ) := by
    exact_mod_cast ctColSum_pos pairs b hb
  have hexp : ∀ a ∈ ctRows pairs,
      cellChi pairs a b
        = ((obsCount pairs a b : ℚ) ^ 2 / expectedQ pairs a b
            + expectedQ pairs a b)
          - 2 * (obsCount pairs a b : ℚ) := by
    intro a ha
    have he := expectedQ_pos pairs a b ha hb hn
    rw [cellChi_eq pairs a b ha hb hn]
    field_simp
    ring
  rw [List.map_congr_left hexp, sum_map_sub, sum_map_add]
  have hsume : ((ctRows pairs).map (fun a => expectedQ pairs a b)).sum
      = (ctColSum pairs b : ℚ) := by
    have hcongr : ∀ a ∈ ctRows pairs,
        expectedQ pairs a b
          = (ctColSum pairs b : ℚ) / (ctTotal pairs : ℚ)
              * (ctRowSum pairs a : ℚ) := by
      intro a _
      unfold expectedQ
      field_simp
      ring
    rw [List.map_congr_left hcongr, sum_map_mul_left, sum_cast_ctRowSum]
    field_simp
  have hsumo : ((ctRows pairs).map
      (fun a => (2 : ℚ) * (obsCount pairs a b : ℚ))).sum
      = 2 * (ctColSum pairs b : ℚ) := by
    rw [sum_map_mul_left]
    have hcast : ((ctRows pairs).map
        (fun a => (obsCount pairs a b : ℚ))).sum
        = (ctColSum pairs b : ℚ) := by
      unfold ctColSum
      rw [Nat.cast_list_sum, List.map_map]
      rfl
    rw [hcast]
  have hbound : ((ctRows pairs).map
      (fun a => (obsCount pairs a b : ℚ) ^ 2 / expectedQ pairs a b)).sum
      ≤ (ctTotal pairs : ℚ) := by
    have hpt : ∀ a ∈ ctRows pairs,
        (obsCount pairs a b : ℚ) ^ 2 / expectedQ pairs a b
          ≤ (ctTotal pairs : ℚ) / (ctColSum pairs b : ℚ)
              * (obsCount pairs a b : ℚ) := by
      intro a ha
      have hr0 : (0 : ℚ) < (ctRowSum pairs a : ℚ) := by
        exact_mod_cast ctRowSum_pos pairs a ha
      have hor : (obsCount pairs a b : ℚ) ≤ (ctRowSum pairs a : ℚ) := by
        exact_mod_cast obs_le_ctRowSum pairs a b hb
      have ho0 : (0 : ℚ) ≤ (obsCount pairs a b : ℚ) := Nat.cast_nonneg _
      have hepos := expectedQ_pos pairs a b ha hb hn
      rw [div_le_iff hepos]
      unfold expectedQ
      have hrhs : (ctTotal pairs : ℚ) / (ctColSum pairs b : ℚ)
            * (obsCount pairs a b : ℚ)
            * ((ctRowSum pairs a : ℚ) * (ctColSum pairs b : ℚ)
                / (ctTotal pairs : ℚ))
          = (obsCount pairs a b : ℚ) * (ctRowSum pairs a : ℚ) := by
        field_simp
        ring
      rw [hrhs]
      nlinarith
    calc ((ctRows pairs).map
        (fun a => (obsCount pairs a b : ℚ) ^ 2 / expectedQ pairs a b)).sum
        ≤ ((ctRows pairs).map
            (fun a => (ctTotal pairs : ℚ) / (ctColSum pairs b : ℚ)
              * (obsCount pairs a b : ℚ))).sum := List.sum_le_sum hpt
      _ = (ctTotal pairs : ℚ) / (ctColSum pairs b : ℚ)
            * (ctColSum pairs b : ℚ) := by
          rw [sum_map_mul_left]
          congr 1
          unfold ctColSum
          rw [Nat.cast_list_sum, List.map_map]
          rfl
      _ = (ctTotal pairs : ℚ) := by field_simp
  linarith

/-- Helper: chi² is at most n·(R - 1). -/
lemma chiSquare_le_rows (pairs : List (α × β)) (hn : 0 < ctTotal pairs) :
    chiSquare pairs
      ≤ (ctTotal pairs : ℚ) * (((ctRows pairs).length : ℚ) - 1) := by
  unfold chiSquare
  rw [if_neg (Nat.pos_iff_ne_zero.mp hn)]
  calc ((ctRows pairs).map
      (fun a => ((ctCols pairs).map (fun b => cellChi pairs a b)).sum)).sum
      ≤ ((ctRows pairs).map
          (fun a => (ctTotal pairs : ℚ) - (ctRowSum pairs a : ℚ))).sum :=
        List.sum_le_sum (fun a ha => cellChi_row_sum_le pairs a ha hn)
    _ = ((ctRows pairs).map (fun _ => (ctTotal pairs : ℚ))).sum
          - ((ctRows pairs).map (fun a => (ctRowSum pairs a : ℚ))).sum :=
        sum_map_sub _ _ _
    _ = ((ctRows pairs).length : ℚ) * (ctTotal pairs : ℚ)
          - (ctTotal pairs : ℚ) := by
        rw [sum_map_const_q, sum_cast_ctRowSum]
    _ = (ctTotal pairs : ℚ) * (((ctRows pairs).length : ℚ) - 1) := by ring

/-- Helper: chi² is at most n·(C - 1). -/
lemma chiSquare_le_cols (pairs : List (α × β)) (hn : 0 < ctTotal pairs) :
    chiSquare pairs
      ≤ (ctTotal pairs : ℚ) * (((ctCols pairs).length : ℚ) - 1) := by
  unfold chiSquare
  rw [if_neg (Nat.pos_iff_ne_zero.mp hn),
    sum_map_comm (ctRows pairs) (ctCols pairs)
      (fun a b => cellChi pairs a b)]
  calc ((ctCols pairs).map
      (fun b => ((ctRows pairs).map (fun a => cellChi pairs a b)).sum)).sum
      ≤ ((ctCols pairs).map
          (fun b => (ctTotal pairs : ℚ) - (ctColSum pairs b : ℚ))).sum :=
        List.sum_le_sum (fun b hb => cellChi_col_sum_le pairs b hb hn)
    _ = ((ctCols pairs).map (fun _ => (ctTotal pairs : ℚ))).sum
          - ((ctCols pairs).map (fun b => (ctColSum pairs b : ℚ))).sum :=
        sum_map_sub _ _ _
    _ = ((ctCols pairs).length : ℚ) * (ctTotal pairs : ℚ)
          - (ctTotal pairs : ℚ) := by
        rw [sum_map_const_q, sum_cast_ctColSum]
    _ = (ctTotal pairs : ℚ) * (((ctCols pairs).length : ℚ) - 1) := by ring

/-- C9, confirmed: every computed Cramér's V value lies in [0, 1].
The source returns V = sqrt(chi²/(n·min_dim)); since the square root
maps [0, 1] onto [0, 1], this is exactly V² = chi²/(n·min_dim) ∈ [0, 1],
which is what the theorem states about the rational embedding.  The
1e-10 floor never fires on a live table (every pivot row/column comes
from an observed pair, so all expected counts are positive), and the
classical bound chi² ≤ n·(min(R, C) - 1) holds. -/
theorem C9_cramers_v_range {α β : Type} [DecidableEq α] [DecidableEq β]
    (pairs : List (α × β)) (v : ℚ) (h : cramersVSq pairs = some v) :
    0 ≤ v ∧ v ≤ 1 := by
  unfold cramersVSq at h
  by_cases h1 : pairs.length < 2
  · rw [if_pos h1] at h
    exact absurd h (by simp)
  rw [if_neg h1] at h
  by_cases h2 : (ctRows pairs).length = 0 ∨ (ctCols pairs).length = 0
  · rw [if_pos h2] at h
    exact absurd h (by simp)
  rw [if_neg h2] at h
  dsimp only [] at h
  by_cases h3 : min (ctRows pairs).length (ctCols pairs).length - 1 = 0
      ∨ ctTotal pairs = 0
  · rw [if_pos h3] at h
    exact absurd h (by simp)
  rw [if_neg h3] at h
  push_neg at h3
  obtain ⟨hmin, hn⟩ := h3
  have hnpos : 0 < ctTotal pairs := Nat.pos_of_ne_zero hn
  have hn0 : (0 : ℚ) < (ctTotal pairs : ℚ) := by exact_mod_cast hnpos
  have hmin2 : 2 ≤ min (ctRows pairs).length (ctCols pairs).length := by
    omega
  have hMcast : ((min (ctRows pairs).length (ctCols pairs).length - 1 : ℕ) : ℚ)
      = (min (ctRows pairs).length (ctCols pairs).length : ℚ) - 1 := by
    push_cast [Nat.cast_sub (by omega : 1 ≤ min (ctRows pairs).length
      (ctCols pairs).length)]
    ring
  have hM0 : (0 : ℚ)
      < ((min (ctRows pairs).length (ctCols pairs).length - 1 : ℕ) : ℚ) := by
    exact_mod_cast Nat.pos_of_ne_zero hmin
  have hv : chiSquare pairs
      / ((ctTotal pairs : ℚ)
          * ((min (ctRows pairs).length (ctCols pairs).length - 1 : ℕ) : ℚ))
      = v := Option.some_inj.mp h
  have hdenom : (0 : ℚ) < (ctTotal pairs : ℚ)
      * ((min (ctRows pairs).length (ctCols pairs).length - 1 : ℕ) : ℚ) :=
    mul_pos hn0 hM0
  constructor
  · rw [← hv]
    exact div_nonneg (chiSquare_nonneg pairs) (le_of_lt hdenom)
  · rw [← hv, div_le_one hdenom, hMcast]
    rcases le_total (ctRows pairs).length (ctCols pairs).length with hrc | hrc
    · rw [min_eq_left (show ((ctRows pairs).length : ℚ)
          ≤ ((ctCols pairs).length : ℚ) by exact_mod_cast hrc)]
      exact chiSquare_le_rows pairs hnpos
    · rw [min_eq_right (show ((ctCols pairs).length : ℚ)
          ≤ ((ctRows pairs).length : ℚ) by exact_mod_cast hrc)]
      exact chiSquare_le_cols pairs hnpos

end CramersV

/-- The 2 by 2 independent table: each of the four value pairs occurs
once, so every expected count is 1 and chi² = 0. -/
def c9pairs : List (String × String) :=
  [("a", "x"), ("a", "y"), ("b", "x"), ("b", "y")]

/-- Helper: on `c9pairs` the (squared) Cramér's V is computed and
equals 0. -/
lemma c9pairs_value : cramersVSq c9pairs = some 0 := by
  have hrows : ctRows c9pairs = ["a", "b"] := by decide
  have hcols : ctCols c9pairs = ["x", "y"] := by decide
  have htot : ctTotal c9pairs = 4 := by decide
  have hra : ctRowSum c9pairs "a" = 2 := by decide
  have hrb : ctRowSum c9pairs "b" = 2 := by decide
  have hcx : ctColSum c9pairs "x" = 2 := by decide
  have hcy : ctColSum c9pairs "y" = 2 := by decide
  have hobs : ∀ a b, obsCount c9pairs a b ≤ 1 → True := fun _ _ _ => trivial
  have hcell : ∀ a ∈ ctRows c9pairs, ∀ b ∈ ctCols c9pairs,
      cellChi c9pairs a b = 0 := by
    intro a ha b hb
    rw [hrows] at ha
    rw [hcols] at hb
    have he : expectedQ c9pairs a b = 1 := by
      unfold expectedQ
      fin_cases ha <;> fin_cases hb <;>
        rw [htot] <;>
        first
          | (rw [hra, hcx]; norm_num)
          | (rw [hra, hcy]; norm_num)
          | (rw [hrb, hcx]; norm_num)
          | (rw [hrb, hcy]; norm_num)
    have hob : obsCount c9pairs a b = 1 := by
      fin_cases ha <;> fin_cases hb <;> decide
    unfold cellChi
    dsimp only []
    rw [he, hob]
    norm_num
  have hchi : chiSquare c9pairs = 0 := by
    unfold chiSquare
    rw [if_neg (by decide)]
    apply List.sum_eq_zero
    intro x hx
    obtain ⟨a, ha, hax⟩ := List.mem_map.mp hx
    rw [← hax]
    apply List.sum_eq_zero
    intro y hy
    obtain ⟨b, hb, hby⟩ := List.mem_map.mp hy
    rw [← hby]
    exact hcell a ha b hb
  unfold cramersVSq
  rw [if_neg (by decide), if_neg (by decide)]
  dsimp only []
  rw [if_neg (by decide), hchi]
  norm_num

/-- C9, witness: the range theorem applied at the concrete 2 by 2
independent table, whose computed squared Cramér's V is 0. -/
theorem C9_witness :
    cramersVSq c9pairs = some 0 ∧ (0 ≤ (0 : ℚ) ∧ (0 : ℚ) ≤ 1) :=
  ⟨c9pairs_value, C9_cramers_v_range c9pairs 0 c9pairs_value⟩

end DataTUI
